import Mathlib

/-!
Shallow embedding of the conference-bot notification core (src/conf.py).

Modelling conventions:
* Time is an integer count of seconds (one fixed time zone, as in the source,
  which stores and compares all timestamps in Kyiv time).  A session's
  `start_at` is `Option Int`: `none` models an unparseable/missing start time
  (`parse_dt` returning `None` / a NULL column, which every SQL comparison
  excludes).
* The Postgres tables become lists of records inside a single `St` state;
  SQL `INSERT .. ON CONFLICT .. DO UPDATE` becomes find-then-map/append,
  mirroring the Python read-modify-write in `rsvp_upsert`/`feedback_upsert`.
* The delivery log (`delivery_log`) keeps the three columns the code ever
  filters on: `action`, `client_id`, `event_id` (the free-text `details` and
  the timestamp are never queried by the dispatcher logic and are omitted).
* Outbound Telegram traffic is recorded in an event trace (`Ev`): each
  candidate delivery becomes one `Ev.attempt` whose Boolean outcome is taken
  from an explicit success oracle (`ok`), standing for the pair of
  `bot.send_message` calls succeeding; a raised Telegram exception is the
  `false` outcome.  Support-channel traffic is recorded as `Ev.supportAlert`
  (the low-score escalation of `route_low_feedback`) and `Ev.supportNote`
  (the supplementary comment of `route_low_feedback_comment_update`).
* Each dispatcher function threads a pair `Run = St × List Ev`: the store
  state plus the trace of this run, in program order.
-/

/-- A row of the `clients` table (the fields the notification core reads). -/
structure Client where
  clientId : Nat
  tgUserId : Option Nat
  status : String
  documentsCollected : Bool
  deriving Repr, DecidableEq

/-- A row of the `events` table.  `startAt = none` models a NULL or
unparseable start time; `type` is the session-type code. -/
structure Event where
  eventId : Nat
  type : Nat
  startAt : Option Int
  durationMin : Int
  deriving Repr, DecidableEq

/-- A row of the `rsvp` table, keyed by `(eventId, clientId)`. -/
structure Rsvp where
  eventId : Nat
  clientId : Nat
  rsvp : String
  remind24h : Bool
  reminded24h : Bool
  reminded60m : Bool
  rsvpAt : Int
  postEventSurveySent : Bool
  deriving Repr, DecidableEq

/-- A row of the `attendance` table, keyed by `(eventId, clientId)`. -/
structure Attendance where
  eventId : Nat
  clientId : Nat
  attended : Bool
  deriving Repr, DecidableEq

/-- A row of the `feedback` table, keyed by `(eventId, clientId)`. -/
structure Feedback where
  eventId : Nat
  clientId : Nat
  stars : Nat
  comment : String
  owner : String
  deriving Repr, DecidableEq

/-- A row of the append-only `delivery_log` table (`log_action` insert).
`clientId`/`eventId` are `Option` because `log_action` writes NULL when a
column is not supplied. -/
structure LogEntry where
  action : String
  clientId : Option Nat
  eventId : Option Nat
  deriving Repr, DecidableEq

/-- The persistent store: the tables the notification core touches. -/
structure St where
  clients : List Client
  events : List Event
  rsvps : List Rsvp
  attendance : List Attendance
  feedback : List Feedback
  ledger : List LogEntry
  deriving Repr, DecidableEq

/-- One observable step of a dispatcher run. -/
inductive Ev where
  | attempt (clientId eventId : Nat) (kind : String) (ok : Bool)
  | supportAlert (eventId clientId : Nat) (ok : Bool)
  | supportNote (eventId clientId : Nat) (ok : Bool)
  | ledgerWrite (action : String) (clientId eventId : Option Nat)
  deriving Repr, DecidableEq

/-- State plus the trace of the current run. -/
abbrev Run := St × List Ev

/-- `log_action`: append one row to `delivery_log` (and record the write in
the trace).  The source swallows insertion errors; the model assumes the
insert succeeds. -/
def log_action (action : String) (cid eid : Option Nat) (s : Run) : Run :=
  ({ s.1 with ledger := s.1.ledger ++ [{ action := action, clientId := cid, eventId := eid }] },
   s.2 ++ [Ev.ledgerWrite action cid eid])

/-- Record an outbound delivery attempt in the trace. -/
def emit (e : Ev) (s : Run) : Run :=
  (s.1, s.2 ++ [e])

/-- Apply a pure store update without touching the trace. -/
def onSt (f : St → St) (s : Run) : Run :=
  (f s.1, s.2)

/-- `has_log`: is there a `delivery_log` row with this exact
`(action, client_id, event_id)`?  SQL `client_id = $2` never matches a NULL
column, hence the comparison with `some cid`. -/
def has_log (st : St) (action : String) (cid eid : Nat) : Bool :=
  st.ledger.any fun l =>
    decide (l.action = action ∧ l.clientId = some cid ∧ l.eventId = some eid)

/-- Key predicate for the `(event_id, client_id)` natural key shared by the
rsvp / attendance / feedback tables. -/
def keyMatch (eid cid : Nat) (reid rcid : Nat) : Bool :=
  decide (reid = eid ∧ rcid = cid)

/-- `SELECT * FROM events WHERE event_id = $1`. -/
def get_event_by_id (st : St) (eid : Nat) : Option Event :=
  st.events.find? fun e => decide (e.eventId = eid)

/-- `SELECT * FROM clients WHERE tg_user_id = $1`. -/
def get_client_by_tg (st : St) (tg : Nat) : Option Client :=
  st.clients.find? fun c => decide (c.tgUserId = some tg)

/-- `SELECT tg_user_id FROM clients WHERE client_id = $1`. -/
def try_get_tg_from_client_id (st : St) (cid : Nat) : Option Nat :=
  match st.clients.find? fun c => decide (c.clientId = cid) with
  | some c => c.tgUserId
  | none => none

/-- `SELECT * FROM clients WHERE status = 'active'` (`list_active_clients`). -/
def list_active_clients (st : St) : List Client :=
  st.clients.filter fun c => decide (c.status = "active")

/-- `SELECT * FROM rsvp WHERE event_id = $1` (`rsvp_get_for_event`). -/
def rsvp_get_for_event (st : St) (eid : Nat) : List Rsvp :=
  st.rsvps.filter fun r => decide (r.eventId = eid)

/-- `rsvp_upsert`: read the current row for the pair, keep every field the
caller did not supply, then `INSERT .. ON CONFLICT (event_id, client_id)
DO UPDATE` the merged row (always refreshing `rsvp_at`).  The SQL statement
does not touch `post_event_survey_sent`, so an update preserves it and an
insert starts it at the column default `FALSE`. -/
def rsvp_upsert (st : St) (eid cid : Nat) (rsvp : Option String)
    (remind_24h reminded_24h reminded_60m : Option Bool) (now : Int) : St :=
  let current := st.rsvps.find? fun r => keyMatch eid cid r.eventId r.clientId
  match current with
  | some c =>
    let newRec : Rsvp :=
      { eventId := eid, clientId := cid
        rsvp := rsvp.getD c.rsvp
        remind24h := remind_24h.getD c.remind24h
        reminded24h := reminded_24h.getD c.reminded24h
        reminded60m := reminded_60m.getD c.reminded60m
        rsvpAt := now
        postEventSurveySent := c.postEventSurveySent }
    { st with rsvps := st.rsvps.map fun r =>
        if keyMatch eid cid r.eventId r.clientId then newRec else r }
  | none =>
    let newRec : Rsvp :=
      { eventId := eid, clientId := cid
        rsvp := rsvp.getD ""
        remind24h := remind_24h.getD false
        reminded24h := reminded_24h.getD false
        reminded60m := reminded_60m.getD false
        rsvpAt := now
        postEventSurveySent := false }
    { st with rsvps := st.rsvps ++ [newRec] }

/-- The `UPDATE rsvp SET post_event_survey_sent = TRUE` issued after a
successful post-event-survey send inside `scheduler_tick`. -/
def set_post_event_survey_sent (st : St) (eid cid : Nat) : St :=
  { st with rsvps := st.rsvps.map fun r =>
      if keyMatch eid cid r.eventId r.clientId then { r with postEventSurveySent := true } else r }

/-- `feedback_upsert`: read the current row, merge the supplied fields over
it, then upsert.  The `ON CONFLICT .. DO UPDATE` clause sets only `stars`
and `comment`, so on an existing row `owner` keeps its stored value; a fresh
row starts with `owner = ""`.  Returns the row the SQL `RETURNING *` yields. -/
def feedback_upsert (st : St) (eid cid : Nat) (stars : Option Nat)
    (comment : Option String) : St × Feedback :=
  let current := st.feedback.find? fun f => keyMatch eid cid f.eventId f.clientId
  match current with
  | some c =>
    let newRec : Feedback := { c with stars := stars.getD c.stars, comment := comment.getD c.comment }
    ({ st with feedback := st.feedback.map fun f =>
        if keyMatch eid cid f.eventId f.clientId then newRec else f },
     newRec)
  | none =>
    let newRec : Feedback :=
      { eventId := eid, clientId := cid, stars := stars.getD 0
        comment := comment.getD "", owner := "" }
    ({ st with feedback := st.feedback ++ [newRec] }, newRec)

/-- `feedback_assign_owner`: `UPDATE feedback SET owner = $1` for the pair
(no insert when the row is absent). -/
def feedback_assign_owner (st : St) (eid cid : Nat) (owner : String) : St :=
  { st with feedback := st.feedback.map fun f =>
      if keyMatch eid cid f.eventId f.clientId then { f with owner := owner } else f }

/-- `mark_attendance`: upsert of the `attendance` row plus the
`attendance_marked` audit entry.  (The follow-up type-4 documents survey the
Python function may fire only sends a message and writes unrelated audit
entries; it is outside every verified property and not modelled.) -/
def mark_attendance (st : St) (eid cid : Nat) (attended : Bool) : St :=
  let st' : St :=
    match st.attendance.find? (fun a => keyMatch eid cid a.eventId a.clientId) with
    | some _ =>
      { st with attendance := st.attendance.map fun a =>
          if keyMatch eid cid a.eventId a.clientId then { a with attended := attended } else a }
    | none =>
      { st with attendance := st.attendance ++ [{ eventId := eid, clientId := cid, attended := attended }] }
  { st' with ledger := st'.ledger ++ [{ action := "attendance_marked", clientId := some cid, eventId := some eid }] }

/-- `client_has_attended_type`: does an `attendance` row with
`attended = TRUE` exist, joined to an event of this type? -/
def client_has_attended_type (st : St) (cid type_code : Nat) : Bool :=
  st.attendance.any fun a =>
    decide (a.clientId = cid) && a.attended &&
      st.events.any fun e => decide (e.eventId = a.eventId ∧ e.type = type_code)

/-- `client_has_active_invite_for_type`: an rsvp row whose value is `''` or
`'going'`, joined to a future (`start_at >= now`) event of this type.  A NULL
start time never satisfies the SQL comparison. -/
def client_has_active_invite_for_type (st : St) (cid type_code : Nat) (now : Int) : Bool :=
  st.rsvps.any fun r =>
    decide (r.clientId = cid) && (decide (r.rsvp = "") || decide (r.rsvp = "going")) &&
      st.events.any fun e =>
        decide (e.eventId = r.eventId ∧ e.type = type_code) &&
          match e.startAt with
          | some t => decide (now ≤ t)
          | none => false

/-- `client_has_confirmed_event_at_time`: does the client hold a `'going'`
rsvp on an event whose half-open interval `[start, start + duration)`
overlaps `[start_dt, start_dt + duration_min)`?  (SQL:
`e.start_at < end_dt AND e.start_at + duration > start_dt`.) -/
def client_has_confirmed_event_at_time (st : St) (cid : Nat) (start_dt duration_min : Int) : Bool :=
  let end_dt := start_dt + duration_min * 60
  st.rsvps.any fun r =>
    decide (r.clientId = cid) && decide (r.rsvp = "going") &&
      st.events.any fun e =>
        decide (e.eventId = r.eventId) &&
          match e.startAt with
          | some t => decide (t < end_dt) && decide (t + e.durationMin * 60 > start_dt)
          | none => false

/-- `COUNT(*)` of the client's `'going'` rsvp rows created today
(`rsvp_at >= today_start`), joined to events of this type
(`count_client_confirmed_today_by_type`).  `todayStart` is the midnight
timestamp the Python computes from the wall clock. -/
def count_client_confirmed_today_by_type (st : St) (cid type_code : Nat) (todayStart : Int) : Nat :=
  st.rsvps.countP fun r =>
    decide (r.clientId = cid) && decide (r.rsvp = "going") && decide (todayStart ≤ r.rsvpAt) &&
      st.events.any fun e => decide (e.eventId = r.eventId ∧ e.type = type_code)

/-- The start time used for ordering future events (every ordered event has
a parseable start, so the default is never consulted). -/
def startOrZero (e : Event) : Int :=
  e.startAt.getD 0

/-- The `SELECT .. WHERE type = $1 AND start_at >= $2 ORDER BY start_at
LIMIT 1` inside `is_earliest_upcoming_event_of_type`: the first event of the
type starting now or later (ties resolved in favour of the earlier row, as a
deterministic rendering of the unspecified SQL tie order). -/
def earliest_upcoming_of_type (st : St) (type_code : Nat) (now : Int) : Option Event :=
  let cands := st.events.filter fun e =>
    decide (e.type = type_code) &&
      match e.startAt with
      | some t => decide (now ≤ t)
      | none => false
  cands.foldl
    (fun acc e =>
      match acc with
      | none => some e
      | some b => if startOrZero e < startOrZero b then some e else some b)
    none

/-- `is_earliest_upcoming_event_of_type`: false when the event's own start
time is unparseable, otherwise compare ids with the query winner. -/
def is_earliest_upcoming_event_of_type (st : St) (ev : Event) (now : Int) : Bool :=
  match ev.startAt with
  | none => false
  | some _ =>
    match earliest_upcoming_of_type st ev.type now with
    | some b => decide (b.eventId = ev.eventId)
    | none => false

/-- Insertion step of the start-time ordering. -/
def insertByStart (e : Event) : List Event → List Event
  | [] => [e]
  | x :: xs =>
    if startOrZero e ≤ startOrZero x then e :: x :: xs else x :: insertByStart e xs

/-- Sort events by start time (the SQL `ORDER BY start_at`, rendered as a
structurally recursive insertion sort so the model stays executable). -/
def sortByStart (l : List Event) : List Event :=
  l.foldr insertByStart []

/-- `list_future_events_sorted`: events with `start_at >= now - 1 day`
(NULL start times excluded by the SQL comparison), ordered by start time. -/
def list_future_events_sorted (st : St) (now : Int) : List Event :=
  sortByStart (st.events.filter fun e =>
    match e.startAt with
    | some t => decide (now - 86400 ≤ t)
    | none => false)

/-- The `rsvp:<event_id>:going` / `rsvp:<event_id>:declined` callback handler
`cb_rsvp`, modelled after callback-data parsing: `tg` is the pressing user's
Telegram id, `action` the third payload field.  Guard chain as in the source:
unregistered user, missing event, and an already-started session (a parseable
start time at or before `now`) all leave the store untouched; on `going` a
time conflict with another confirmed session also returns unchanged,
otherwise the rsvp row is upserted to `'going'` and `rsvp_yes` logged; on
`declined` the row is upserted to `'declined'` and `rsvp_no` logged (the
alternative-date keyboard that follows only sends messages). -/
def cb_rsvp (st : St) (now : Int) (tg eid : Nat) (action : String) : Run :=
  match get_client_by_tg st tg with
  | none => (st, [])
  | some cli =>
    match get_event_by_id st eid with
    | none => (st, [])
    | some event =>
      let started :=
        match event.startAt with
        | some dt => decide (dt ≤ now)
        | none => false
      if started then (st, [])
      else if action = "going" then
        let conflict :=
          match event.startAt with
          | some dt => client_has_confirmed_event_at_time st cli.clientId dt event.durationMin
          | none => false
        if conflict then (st, [])
        else
          log_action "rsvp_yes" (some cli.clientId) (some eid)
            (onSt (fun st => rsvp_upsert st eid cli.clientId (some "going") none none none now) (st, []))
      else if action = "declined" then
        log_action "rsvp_no" (some cli.clientId) (some eid)
          (onSt (fun st => rsvp_upsert st eid cli.clientId (some "declined") none none none now) (st, []))
      else (st, [])

/-- The `alt:pick:<event_id>` callback handler `alt_pick`: pick an
alternative date after declining.  Same conflict guard as `cb_rsvp`/`going`
(but no already-started check in the source); on success the rsvp row for the
alternative event is upserted to `'going'` and `rsvp_alt_yes` logged. -/
def alt_pick (st : St) (now : Int) (tg altEid : Nat) : Run :=
  match get_client_by_tg st tg with
  | none => (st, [])
  | some cli =>
    match get_event_by_id st altEid with
    | none => (st, [])
    | some altEvent =>
      let conflict :=
        match altEvent.startAt with
        | some dt => client_has_confirmed_event_at_time st cli.clientId dt altEvent.durationMin
        | none => false
      if conflict then (st, [])
      else
        log_action "rsvp_alt_yes" (some cli.clientId) (some altEid)
          (onSt (fun st => rsvp_upsert st altEid cli.clientId (some "going") none none none now) (st, []))

/-- `route_low_feedback`: the escalation alert to the support channel.
`okSupport` is the outcome of the support-channel send (the source's
rate-limit retry is folded into this single judged outcome); on failure the
source falls back to direct messages to each current admin (`admins`, with
per-admin outcome `okAdmin`), logging each.  The function never raises. -/
def route_low_feedback (eid cid : Nat) (okSupport : Bool) (admins : List Nat)
    (okAdmin : Nat → Bool) (s : Run) : Run :=
  let s1 := emit (Ev.supportAlert eid cid okSupport) s
  if okSupport then
    log_action "feedback_low_notified" (some cid) (some eid) s1
  else
    let s2 := log_action "feedback_low_notify_fail" (some cid) (some eid) s1
    admins.foldl
      (fun s a =>
        if okAdmin a then log_action "feedback_low_notified_admin_dm" (some cid) (some eid) s
        else log_action "feedback_low_admin_dm_fail" (some cid) (some eid) s)
      s2

/-- `route_low_feedback_comment_update`: the supplementary note sent to the
support channel when a comment arrives after a low score. -/
def route_low_feedback_comment_update (eid cid : Nat) (okSupport : Bool) (s : Run) : Run :=
  let s1 := emit (Ev.supportNote eid cid okSupport) s
  if okSupport then log_action "low_fb_comment_update_sent" (some cid) (some eid) s1
  else log_action "support_send_error" (some cid) (some eid) s1

/-- The star-selection branch of the `fb:` callback handler `fb_callbacks`
(payload `fb:<event_id>:<client_id>:<stars>`): upsert the stars, and when
`stars < 4` escalate through `route_low_feedback` (which never raises, so
`low_fb_alert_sent` is then always logged).  The remaining branches of
`fb_callbacks` (`fb:skip:`, `fb:comment:`) only edit messages and set the
FSM state. -/
def fb_callbacks_stars (st : St) (eid cid stars : Nat) (okSupport : Bool)
    (admins : List Nat) (okAdmin : Nat → Bool) : Run :=
  let st1 := (feedback_upsert st eid cid (some stars) none).1
  if stars < 4 then
    log_action "low_fb_alert_sent" (some cid) (some eid)
      (route_low_feedback eid cid okSupport admins okAdmin (st1, []))
  else (st1, [])

/-- The comment-message handler `fb_wait_comment`: `text` is the inbound
message text after the source's whitespace strip (the strip itself is an
input-boundary detail not modelled); a bare `"-"` means "no comment".  The
comment is merged into the feedback row; when the merged row's stars are
non-zero, below 4, and the comment non-empty, the supplementary support note
is sent. -/
def fb_wait_comment (st : St) (eid cid : Nat) (text : String) (okSupport : Bool) : Run :=
  let comment := if text = "-" then "" else text
  let up := feedback_upsert st eid cid none (some comment)
  let stars := up.2.stars
  if stars ≠ 0 ∧ stars < 4 ∧ comment ≠ "" then
    route_low_feedback_comment_update eid cid okSupport (up.1, [])
  else (up.1, [])

/-- One candidate client of the invite broadcast loop inside
`send_initial_invites_for_event`: the eligibility filters in source order,
each skip writing an `invite_skip` audit row; then the `invite_sent`
idempotency gate; then the send (success `ok cli.clientId`), which on
success upserts a blank rsvp row and appends `invite_sent`, and on failure
appends `invite_immediate_error`. -/
def invite_try_client (event : Event) (dt now todayStart : Int) (ok : Nat → Bool)
    (s : Run) (cli : Client) : Run :=
  let st := s.1
  let cid := cli.clientId
  let eid := event.eventId
  let tc := event.type
  let tgMissing :=
    match cli.tgUserId with
    | none => true
    | some t => decide (t = 0)
  if cid = 0 ∨ tgMissing = true then
    log_action "invite_skip" (some cid) (some eid) s
  else if tc ≠ 4 ∧ client_has_attended_type st cid tc then
    log_action "invite_skip" (some cid) (some eid) s
  else if client_has_active_invite_for_type st cid tc now then
    log_action "invite_skip" (some cid) (some eid) s
  else if tc = 4 ∧ ¬client_has_attended_type st cid 1 then
    log_action "invite_skip" (some cid) (some eid) s
  else if tc = 4 ∧ cli.documentsCollected then
    log_action "invite_skip" (some cid) (some eid) s
  else if (if tc = 1 then 1 ≤ count_client_confirmed_today_by_type st cid tc todayStart
           else 2 ≤ count_client_confirmed_today_by_type st cid tc todayStart) then
    log_action "invite_skip" (some cid) (some eid) s
  else if client_has_confirmed_event_at_time st cid dt event.durationMin then
    log_action "invite_skip" (some cid) (some eid) s
  else if has_log st "invite_sent" cid eid then
    log_action "invite_skip" (some cid) (some eid) s
  else
    let s1 := emit (Ev.attempt cid eid "invite" (ok cid)) s
    if ok cid then
      log_action "invite_sent" (some cid) (some eid)
        (onSt (fun st => rsvp_upsert st eid cid (some "") none none none now) s1)
    else
      log_action "invite_immediate_error" (some cid) (some eid) s1

/-- `send_initial_invites_for_event`: skip events with no parseable start or
that are not the chronologically earliest upcoming event of their type, then
run the candidate loop over the snapshot of active clients, bracketed by the
`invite_process_start` / `invite_process_complete` audit rows. -/
def send_initial_invites_for_event (st : St) (event : Event) (now todayStart : Int)
    (ok : Nat → Bool) : Run :=
  match event.startAt with
  | none => log_action "invite_skip" none (some event.eventId) (st, [])
  | some dt =>
    if is_earliest_upcoming_event_of_type st event now then
      let s1 := log_action "invite_process_start" none (some event.eventId) (st, [])
      let s2 := (list_active_clients st).foldl (invite_try_client event dt now todayStart ok) s1
      log_action "invite_process_complete" none (some event.eventId) s2
    else
      log_action "invite_skip" none (some event.eventId) (st, [])

/-- Production deadline offsets of `scheduler_tick`, in seconds, exactly as
the uncommented production block sets them: `REM_24H = 60*60`,
`REM_60M = 10*60`, `FEEDBACK_DELAY = 5*60`, `JITTER = 60`. -/
def REM_24H : Int := 60 * 60

/-- The production `REM_60M` constant: `10*60` seconds. -/
def REM_60M : Int := 10 * 60

/-- The production `FEEDBACK_DELAY` constant: `5*60` seconds. -/
def FEEDBACK_DELAY : Int := 5 * 60

/-- The production `JITTER` window half-width: 60 seconds (a natural number,
compared against the absolute value of the signed offset). -/
def JITTER : Nat := 60

/-- One rsvp row of the 24-hour-reminder loop of `scheduler_tick`: resolve
the Telegram id, require an `active` client, skip when `reminded_24h` is
already set, require `rsvp = 'going'`, then send; on success set
`reminded_24h` and append `remind_24h_sent`, on a raised send error do
nothing further. -/
def tick_remind_24h_client (e : Event) (now : Int) (ok : Nat → Nat → Bool)
    (s : Run) (r : Rsvp) : Run :=
  let cid := r.clientId
  match try_get_tg_from_client_id s.1 cid with
  | none => s
  | some tg =>
    match get_client_by_tg s.1 tg with
    | none => s
    | some client =>
      if client.status ≠ "active" then s
      else if r.reminded24h then s
      else if r.rsvp = "going" then
        let okv := ok cid e.eventId
        let s1 := emit (Ev.attempt cid e.eventId "remind_24h" okv) s
        if okv then
          log_action "remind_24h_sent" (some cid) (some e.eventId)
            (onSt (fun st => rsvp_upsert st e.eventId cid none none (some true) none now) s1)
        else s1
      else s

/-- One rsvp row of the 60-minute-reminder loop of `scheduler_tick`
(mirror of the 24h loop with the `reminded_60m` flag and
`remind_60m_sent`). -/
def tick_remind_60m_client (e : Event) (now : Int) (ok : Nat → Nat → Bool)
    (s : Run) (r : Rsvp) : Run :=
  let cid := r.clientId
  match try_get_tg_from_client_id s.1 cid with
  | none => s
  | some tg =>
    match get_client_by_tg s.1 tg with
    | none => s
    | some client =>
      if client.status ≠ "active" then s
      else if r.reminded60m then s
      else if r.rsvp = "going" then
        let okv := ok cid e.eventId
        let s1 := emit (Ev.attempt cid e.eventId "remind_60m" okv) s
        if okv then
          log_action "remind_60m_sent" (some cid) (some e.eventId)
            (onSt (fun st => rsvp_upsert st e.eventId cid none none none (some true) now) s1)
        else s1
      else s

/-- One rsvp row of the post-event-survey loop of `scheduler_tick`: resolve
the Telegram id, require an `active` client, send the survey; on success set
`post_event_survey_sent` and append `post_event_survey_sent`. -/
def tick_survey_client (e : Event) (ok : Nat → Nat → Bool) (s : Run) (r : Rsvp) : Run :=
  let cid := r.clientId
  match try_get_tg_from_client_id s.1 cid with
  | none => s
  | some tg =>
    match get_client_by_tg s.1 tg with
    | none => s
    | some client =>
      if client.status ≠ "active" then s
      else
        let okv := ok cid e.eventId
        let s1 := emit (Ev.attempt cid e.eventId "post_event_survey" okv) s
        if okv then
          log_action "post_event_survey_sent" (some cid) (some e.eventId)
            (onSt (fun st => set_post_event_survey_sent st e.eventId cid) s1)
        else s1

/-- The 24h-reminder block of the tick body: loop over the rsvp rows
fetched at block entry. -/
def tick_branch_24h (e : Event) (now : Int) (ok : Nat → Nat → Bool) (s : Run) : Run :=
  (rsvp_get_for_event s.1 e.eventId).foldl (tick_remind_24h_client e now ok) s

/-- The 60m-reminder block of the tick body. -/
def tick_branch_60m (e : Event) (now : Int) (ok : Nat → Nat → Bool) (s : Run) : Run :=
  (rsvp_get_for_event s.1 e.eventId).foldl (tick_remind_60m_client e now ok) s

/-- The post-event-survey block of the tick body: the session-level
`has_log` guard (whose `client_id = 0` comparison can never match the NULL
column the guard row is written with), then the guard row written BEFORE
any send, then - except for type-4 events - the per-attendee survey loop. -/
def tick_branch_survey (e : Event) (ok : Nat → Nat → Bool) (s : Run) : Run :=
  if has_log s.1 "post_event_survey_requested" 0 e.eventId then s
  else
    let s := log_action "post_event_survey_requested" none (some e.eventId) s
    if e.type = 4 then s
    else
      (s.1.rsvps.filter fun r =>
        decide (r.eventId = e.eventId) && decide (r.rsvp = "going") && !r.postEventSurveySent).foldl
        (tick_survey_client e ok) s

/-- The per-event body of `scheduler_tick`: with `diff = start - now`, fire
the 24h block when `|diff - REM_24H| <= JITTER`, the 60m block when
`|diff - REM_60M| <= JITTER`, and the post-event-survey block when the end
of the session lies `FEEDBACK_DELAY +- JITTER` in the past. -/
def tick_event (now : Int) (ok : Nat → Nat → Bool) (s : Run) (e : Event) : Run :=
  match e.startAt with
  | none => s
  | some dt =>
    let diff := dt - now
    let s := if (diff - REM_24H).natAbs ≤ JITTER then tick_branch_24h e now ok s else s
    let s := if (diff - REM_60M).natAbs ≤ JITTER then tick_branch_60m e now ok s else s
    let end_dt := dt + e.durationMin * 60
    let post_end := now - end_dt
    if (post_end - FEEDBACK_DELAY).natAbs ≤ JITTER then tick_branch_survey e ok s else s

/-- `scheduler_tick`: iterate the future events fetched once at tick start.
(The hourly motivational-message branch only sends motivational texts and
writes `motivational_sent` audit rows, none of which any verified property
mentions; it is not modelled.) -/
def scheduler_tick (st : St) (now : Int) (ok : Nat → Nat → Bool) : Run :=
  (list_future_events_sorted st now).foldl (tick_event now ok) (st, [])

/-! ## Generic helpers -/

/-- A predicate preserved by every step of a fold is preserved by the fold. -/
theorem foldl_preserve {α β : Type} (f : β → α → β) (P : β → Prop)
    (l : List α) (hf : ∀ s x, x ∈ l → P s → P (f s x)) :
    ∀ s, P s → P (l.foldl f s) := by
  induction l with
  | nil => intro s h; simpa using h
  | cons x xs ih =>
    intro s h
    simp only [List.foldl_cons]
    exact ih (fun s y hy hp => hf s y (List.mem_cons_of_mem _ hy) hp) _
      (hf s x (List.mem_cons_self _ _) h)

/-- With at most one occurrence satisfying `p`, any two satisfying members
coincide. -/
theorem countP_le_one_mem_eq {α : Type} {p : α → Bool} {l : List α}
    (h : l.countP p ≤ 1) {x y : α} (hx : x ∈ l) (hy : y ∈ l)
    (px : p x = true) (py : p y = true) : x = y := by
  induction l with
  | nil => cases hx
  | cons a t ih =>
    rw [List.countP_cons] at h
    rcases List.mem_cons.1 hx with rfl | hx'
    · rcases List.mem_cons.1 hy with rfl | hy'
      · rfl
      · exfalso
        have h1 : 0 < t.countP p := List.countP_pos_iff.2 ⟨y, hy', py⟩
        rw [if_pos px] at h
        omega
    · rcases List.mem_cons.1 hy with rfl | hy'
      · exfalso
        have h1 : 0 < t.countP p := List.countP_pos_iff.2 ⟨x, hx', px⟩
        rw [if_pos py] at h
        omega
      · have h1 : t.countP p ≤ 1 := by omega
        exact ih h1 hx' hy'

/-- Unfolding for the Boolean pair-key test. -/
theorem keyMatch_iff {eid cid a b : Nat} :
    keyMatch eid cid a b = true ↔ a = eid ∧ b = cid := by
  simp [keyMatch]

/-! ## RSVP table: key counting and the upsert (claim C4) -/

/-- Number of rsvp rows for a pair. -/
def rsvpKeyCount (st : St) (eid cid : Nat) : Nat :=
  st.rsvps.countP fun r => keyMatch eid cid r.eventId r.clientId

/-- The table invariant: at most one rsvp row per `(event, client)` pair. -/
def RsvpUnique (st : St) : Prop :=
  ∀ eid cid, rsvpKeyCount st eid cid ≤ 1

/-- In the update branch, the pairwise key counts are untouched. -/
theorem rsvp_upsert_count_update (st : St) (eid cid : Nat) (v : Option String)
    (a b d : Option Bool) (now : Int) (c : Rsvp)
    (hf : (st.rsvps.find? fun r => keyMatch eid cid r.eventId r.clientId) = some c) :
    ∀ eid' cid',
      rsvpKeyCount (rsvp_upsert st eid cid v a b d now) eid' cid' =
        rsvpKeyCount st eid' cid' := by
  intro eid' cid'
  simp only [rsvp_upsert, hf, rsvpKeyCount, List.countP_map]
  refine List.countP_congr fun r hr => ?_
  simp only [Function.comp]
  by_cases hk : keyMatch eid cid r.eventId r.clientId = true
  · rcases keyMatch_iff.1 hk with ⟨h1, h2⟩
    rw [if_pos hk]
    show keyMatch eid' cid' eid cid = true ↔ _
    rw [keyMatch_iff, keyMatch_iff, h1, h2]
  · rw [if_neg hk]

/-- In the insert branch, only the inserted pair's count changes, from 0
to 1. -/
theorem rsvp_upsert_count_insert (st : St) (eid cid : Nat) (v : Option String)
    (a b d : Option Bool) (now : Int)
    (hf : (st.rsvps.find? fun r => keyMatch eid cid r.eventId r.clientId) = none) :
    rsvpKeyCount (rsvp_upsert st eid cid v a b d now) eid cid = 1 ∧
    ∀ eid' cid', ¬(eid' = eid ∧ cid' = cid) →
      rsvpKeyCount (rsvp_upsert st eid cid v a b d now) eid' cid' =
        rsvpKeyCount st eid' cid' := by
  have h0 : rsvpKeyCount st eid cid = 0 := by
    rw [rsvpKeyCount, List.countP_eq_zero]
    exact fun r hr => List.find?_eq_none.1 hf r hr
  constructor
  · simp only [rsvp_upsert, hf, rsvpKeyCount, List.countP_append]
    rw [rsvpKeyCount] at h0
    rw [h0]
    simp [keyMatch]
  · intro eid' cid' hne
    simp only [rsvp_upsert, hf, rsvpKeyCount, List.countP_append]
    have hmf : keyMatch eid' cid' eid cid = false := by
      rw [Bool.eq_false_iff]
      intro hk
      rcases keyMatch_iff.1 hk with ⟨u1, u2⟩
      exact hne ⟨u1.symm, u2.symm⟩
    simp [List.countP_cons, hmf]

/-- `rsvp_upsert` preserves the at-most-one-row-per-pair invariant. -/
theorem rsvp_upsert_unique (st : St) (eid cid : Nat) (v : Option String)
    (a b d : Option Bool) (now : Int) (h : RsvpUnique st) :
    RsvpUnique (rsvp_upsert st eid cid v a b d now) := by
  intro eid' cid'
  cases hf : st.rsvps.find? fun r => keyMatch eid cid r.eventId r.clientId with
  | some c => rw [rsvp_upsert_count_update st eid cid v a b d now c hf]; exact h eid' cid'
  | none =>
    by_cases hk : eid' = eid ∧ cid' = cid
    · rcases hk with ⟨rfl, rfl⟩
      rw [(rsvp_upsert_count_insert st eid' cid' v a b d now hf).1]
    · rw [(rsvp_upsert_count_insert st eid cid v a b d now hf).2 eid' cid' hk]
      exact h eid' cid'

/-- After an upsert with value `'going'` on a well-formed table, the pair has
exactly one row and every row for the pair reads `'going'`. -/
theorem rsvp_upsert_going_pair (st : St) (eid cid : Nat) (now : Int)
    (h : rsvpKeyCount st eid cid ≤ 1) :
    rsvpKeyCount (rsvp_upsert st eid cid (some "going") none none none now) eid cid = 1 ∧
    ∀ r ∈ (rsvp_upsert st eid cid (some "going") none none none now).rsvps,
      r.eventId = eid → r.clientId = cid → r.rsvp = "going" := by
  cases hf : st.rsvps.find? fun r => keyMatch eid cid r.eventId r.clientId with
  | none =>
    refine ⟨(rsvp_upsert_count_insert st eid cid (some "going") none none none now hf).1, ?_⟩
    intro r hr h1 h2
    simp only [rsvp_upsert, hf, List.mem_append, List.mem_singleton] at hr
    rcases hr with hr | rfl
    · exact absurd (keyMatch_iff.2 ⟨h1, h2⟩) (List.find?_eq_none.1 hf r hr)
    · rfl
  | some c =>
    constructor
    · rw [rsvp_upsert_count_update st eid cid (some "going") none none none now c hf]
      have hcm : c ∈ st.rsvps := List.mem_of_find?_eq_some hf
      have hck := @List.find?_some Rsvp (fun r => keyMatch eid cid r.eventId r.clientId) c st.rsvps hf
      have hc1 : 0 < rsvpKeyCount st eid cid := List.countP_pos_iff.2 ⟨c, hcm, hck⟩
      omega
    · intro r hr h1 h2
      simp only [rsvp_upsert, hf, List.mem_map] at hr
      rcases hr with ⟨x, hx, hfx⟩
      by_cases hk : keyMatch eid cid x.eventId x.clientId = true
      · rw [if_pos hk] at hfx
        rw [← hfx]
        rfl
      · rw [if_neg hk] at hfx
        rw [← hfx] at h1 h2
        exact absurd (keyMatch_iff.2 ⟨h1, h2⟩) hk

/-- C4: RSVP submission is an idempotent upsert.  `rsvp_upsert` preserves
the at-most-one-row-per-pair invariant of the rsvp table, and submitting
`rsvp='going'` twice for the same `(session, attendee)` pair yields exactly
one rsvp row for the pair, carrying `rsvp='going'`. -/
theorem rsvp_upsert_idempotent_going (st : St) (eid cid : Nat) (t1 t2 : Int)
    (h : RsvpUnique st) :
    (∀ st' e c v a b d t, RsvpUnique st' → RsvpUnique (rsvp_upsert st' e c v a b d t)) ∧
    rsvpKeyCount (rsvp_upsert (rsvp_upsert st eid cid (some "going") none none none t1)
        eid cid (some "going") none none none t2) eid cid = 1 ∧
    ∀ r ∈ (rsvp_upsert (rsvp_upsert st eid cid (some "going") none none none t1)
        eid cid (some "going") none none none t2).rsvps,
      r.eventId = eid → r.clientId = cid → r.rsvp = "going" := by
  refine ⟨fun st' e c v a b d t h' => rsvp_upsert_unique st' e c v a b d t h', ?_⟩
  have h1 := rsvp_upsert_going_pair st eid cid t1 (h eid cid)
  exact rsvp_upsert_going_pair _ eid cid t2 (le_of_eq h1.1)

/-- A store with every table empty, used to instantiate the claims'
theorems at concrete inputs. -/
def emptySt : St :=
  { clients := [], events := [], rsvps := [], attendance := [], feedback := [], ledger := [] }

/-- Concrete instantiation of the C4 theorem on the empty store. -/
theorem rsvp_upsert_idempotent_going_witness :
    rsvpKeyCount (rsvp_upsert (rsvp_upsert emptySt 1 2 (some "going") none none none 10)
        1 2 (some "going") none none none 20) 1 2 = 1 :=
  (rsvp_upsert_idempotent_going emptySt 1 2 10 20
    (fun _ _ => by simp [rsvpKeyCount, emptySt])).2.1

/-! ## Feedback table: owner frame condition (claim C10) -/

/-- Projection of a feedback row to its natural key and owner. -/
def ownerView (f : Feedback) : Nat × Nat × String :=
  (f.eventId, f.clientId, f.owner)

/-- Number of feedback rows for a pair. -/
def fbKeyCount (st : St) (eid cid : Nat) : Nat :=
  st.feedback.countP fun f => keyMatch eid cid f.eventId f.clientId

/-- The table invariant: at most one feedback row per pair. -/
def FbUnique (st : St) : Prop :=
  ∀ eid cid, fbKeyCount st eid cid ≤ 1

/-- C10: `feedback_upsert` never modifies the `owner` column.  On a
well-formed table the upsert either leaves the key-and-owner projection of
every row unchanged (the `ON CONFLICT` update sets only `stars` and
`comment`) or appends one fresh row with the empty owner; consequently an
owner recorded by `feedback_assign_owner` survives any later stars or
comment submission for the pair. -/
theorem feedback_upsert_owner_frame (st : St) (eid cid : Nat)
    (stars : Option Nat) (comment : Option String) (h : FbUnique st) :
    ((feedback_upsert st eid cid stars comment).1.feedback.map ownerView =
        st.feedback.map ownerView ∨
      (feedback_upsert st eid cid stars comment).1.feedback.map ownerView =
        st.feedback.map ownerView ++ [(eid, cid, "")]) ∧
    ∀ ow s2 c2, (∃ f ∈ st.feedback, f.eventId = eid ∧ f.clientId = cid) →
      ∀ g ∈ (feedback_upsert (feedback_assign_owner st eid cid ow) eid cid s2 c2).1.feedback,
        g.eventId = eid → g.clientId = cid → g.owner = ow := by
  constructor
  · cases hf : st.feedback.find? fun f => keyMatch eid cid f.eventId f.clientId with
    | some c =>
      left
      have hcm : c ∈ st.feedback := List.mem_of_find?_eq_some hf
      have hck := @List.find?_some Feedback
        (fun f => keyMatch eid cid f.eventId f.clientId) c st.feedback hf
      simp only [feedback_upsert, hf, List.map_map]
      refine List.map_congr_left fun x hx => ?_
      simp only [Function.comp]
      by_cases hk : keyMatch eid cid x.eventId x.clientId = true
      · have hxc : x = c := countP_le_one_mem_eq (h eid cid) hx hcm hk hck
        rw [if_pos hk, hxc]
        rfl
      · rw [if_neg hk]
    | none =>
      right
      simp only [feedback_upsert, hf, List.map_append]
      rfl
  · intro ow s2 c2 hex g hg h1 h2
    set stA := feedback_assign_owner st eid cid ow with hstA
    have hA : ∀ x ∈ stA.feedback, x.eventId = eid → x.clientId = cid → x.owner = ow := by
      intro x hx hx1 hx2
      simp only [hstA, feedback_assign_owner, List.mem_map] at hx
      rcases hx with ⟨y, hy, hfy⟩
      by_cases hk : keyMatch eid cid y.eventId y.clientId = true
      · rw [if_pos hk] at hfy
        rw [← hfy]
      · rw [if_neg hk] at hfy
        rw [← hfy] at hx1 hx2
        exact absurd (keyMatch_iff.2 ⟨hx1, hx2⟩) hk
    have hexA : ∃ x ∈ stA.feedback, keyMatch eid cid x.eventId x.clientId = true := by
      rcases hex with ⟨f0, hf0, h01, h02⟩
      refine ⟨if keyMatch eid cid f0.eventId f0.clientId then { f0 with owner := ow } else f0,
        ?_, ?_⟩
      · simp only [hstA, feedback_assign_owner, List.mem_map]
        exact ⟨f0, hf0, rfl⟩
      · rw [if_pos (keyMatch_iff.2 ⟨h01, h02⟩)]
        exact keyMatch_iff.2 ⟨h01, h02⟩
    cases hf : stA.feedback.find? fun f => keyMatch eid cid f.eventId f.clientId with
    | none =>
      rcases hexA with ⟨x, hx, hk⟩
      exact absurd hk (List.find?_eq_none.1 hf x hx)
    | some c =>
      have hcm : c ∈ stA.feedback := List.mem_of_find?_eq_some hf
      have hck := @List.find?_some Feedback
        (fun f => keyMatch eid cid f.eventId f.clientId) c stA.feedback hf
      have hco : c.owner = ow :=
        hA c hcm (keyMatch_iff.1 hck).1 (keyMatch_iff.1 hck).2
      simp only [feedback_upsert, hf, List.mem_map] at hg
      rcases hg with ⟨x, hx, hfx⟩
      by_cases hk : keyMatch eid cid x.eventId x.clientId = true
      · rw [if_pos hk] at hfx
        rw [← hfx]
        exact hco
      · rw [if_neg hk] at hfx
        rw [← hfx] at h1 h2
        exact absurd (keyMatch_iff.2 ⟨h1, h2⟩) hk

/-- Feedback store with one stars-only row for the pair `(3, 7)`. -/
def stW10 : St :=
  { emptySt with feedback := [Feedback.mk 3 7 2 "" ""] }

/-- Concrete instantiation of the C10 theorem: after a support claim and a
later comment-only submission, the stored row (which evaluates to
`⟨3, 7, 2, "bad audio", "@support"⟩`) still carries the claimed owner. -/
theorem feedback_upsert_owner_frame_witness :
    (Feedback.mk 3 7 2 "bad audio" "@support").owner = "@support" :=
  (feedback_upsert_owner_frame stW10 3 7 none (some "bad audio")
      (fun _ _ => by simp [fbKeyCount, stW10, emptySt, List.countP_cons]; split <;> simp)).2
    "@support" none (some "bad audio")
    ⟨Feedback.mk 3 7 2 "" "", by simp [stW10, emptySt], rfl, rfl⟩
    (Feedback.mk 3 7 2 "bad audio" "@support") (by decide) rfl rfl

/-! ## Delivery-log counting (claims C1, C2, C7) -/

/-- Number of `delivery_log` rows with this exact
`(action, client_id, event_id)` triple. -/
def countLog (st : St) (action : String) (cid eid : Nat) : Nat :=
  st.ledger.countP fun l =>
    decide (l.action = action ∧ l.clientId = some cid ∧ l.eventId = some eid)

/-- `has_log` is exactly "the count is non-zero". -/
theorem has_log_false_iff (st : St) (a : String) (cid eid : Nat) :
    has_log st a cid eid = false ↔ countLog st a cid eid = 0 := by
  rw [has_log, countLog, List.any_eq_false, List.countP_eq_zero]

/-- Effect of one `log_action` on a log count. -/
theorem countLog_log_action (a : String) (c e : Option Nat) (s : Run)
    (a' : String) (cid eid : Nat) :
    countLog (log_action a c e s).1 a' cid eid =
      countLog s.1 a' cid eid +
        (if a = a' ∧ c = some cid ∧ e = some eid then 1 else 0) := by
  simp [countLog, log_action, List.countP_append, List.countP_cons]

/-- `rsvp_upsert` touches only the rsvp table. -/
theorem rsvp_upsert_frame (st : St) (eid cid : Nat) (v : Option String)
    (a b d : Option Bool) (now : Int) :
    (rsvp_upsert st eid cid v a b d now).ledger = st.ledger ∧
    (rsvp_upsert st eid cid v a b d now).clients = st.clients ∧
    (rsvp_upsert st eid cid v a b d now).events = st.events ∧
    (rsvp_upsert st eid cid v a b d now).attendance = st.attendance ∧
    (rsvp_upsert st eid cid v a b d now).feedback = st.feedback := by
  cases hf : st.rsvps.find? fun r => keyMatch eid cid r.eventId r.clientId <;>
    simp [rsvp_upsert, hf]

/-- `set_post_event_survey_sent` touches only the rsvp table. -/
theorem set_post_event_survey_sent_frame (st : St) (eid cid : Nat) :
    (set_post_event_survey_sent st eid cid).ledger = st.ledger ∧
    (set_post_event_survey_sent st eid cid).clients = st.clients ∧
    (set_post_event_survey_sent st eid cid).events = st.events ∧
    (set_post_event_survey_sent st eid cid).attendance = st.attendance := by
  simp [set_post_event_survey_sent]

/-- `log_action` touches only the ledger (and the trace). -/
theorem log_action_frame (a : String) (c e : Option Nat) (s : Run) :
    (log_action a c e s).1.clients = s.1.clients ∧
    (log_action a c e s).1.events = s.1.events ∧
    (log_action a c e s).1.rsvps = s.1.rsvps ∧
    (log_action a c e s).1.attendance = s.1.attendance ∧
    (log_action a c e s).2 = s.2 ++ [Ev.ledgerWrite a c e] := by
  simp [log_action]

/-! ## The invite broadcast (claims C1, C6, C7) -/

/-- Exhaustive shape analysis of one candidate of the invite loop: either an
`invite_skip` audit row is appended (no attempt), or the attempt fails and
`invite_immediate_error` is appended, or the `invite_sent` gate was open
(`has_log` false), the attempt succeeds, a blank rsvp row is upserted and
`invite_sent` is appended. -/
theorem invite_try_client_cases (event : Event) (dt now todayStart : Int)
    (ok : Nat → Bool) (s : Run) (cli : Client) :
    invite_try_client event dt now todayStart ok s cli =
        log_action "invite_skip" (some cli.clientId) (some event.eventId) s ∨
    (ok cli.clientId = false ∧
      invite_try_client event dt now todayStart ok s cli =
        log_action "invite_immediate_error" (some cli.clientId) (some event.eventId)
          (emit (Ev.attempt cli.clientId event.eventId "invite" false) s)) ∨
    (has_log s.1 "invite_sent" cli.clientId event.eventId = false ∧
      ok cli.clientId = true ∧
      invite_try_client event dt now todayStart ok s cli =
        log_action "invite_sent" (some cli.clientId) (some event.eventId)
          (onSt (fun st => rsvp_upsert st event.eventId cli.clientId (some "") none none none now)
            (emit (Ev.attempt cli.clientId event.eventId "invite" true) s))) := by
  unfold invite_try_client
  dsimp only
  split_ifs <;>
    first
      | exact Or.inl rfl
      | (rename_i hlog hok
         exact Or.inr (Or.inr ⟨by simpa using hlog, hok, by rw [hok]⟩))
      | (rename_i hlog hok
         have hokf : ok cli.clientId = false := by simpa using hok
         exact Or.inr (Or.inl ⟨hokf, by rw [hokf]⟩))

/-- C1 invariant: at most one `invite_sent` ledger row per
`(client, event)` pair. -/
def InviteOnce (st : St) : Prop :=
  ∀ cid eid, countLog st "invite_sent" cid eid ≤ 1

/-- Logging any action other than `invite_sent` preserves the C1
invariant. -/
theorem InviteOnce_log_other (a : String) (ha : a ≠ "invite_sent")
    (c e : Option Nat) (s : Run) (h : InviteOnce s.1) :
    InviteOnce (log_action a c e s).1 := by
  intro cid eid
  rw [countLog_log_action, if_neg (by rintro ⟨h1, -, -⟩; exact ha h1), Nat.add_zero]
  exact h cid eid

/-- One step of the invite loop preserves the C1 invariant: every branch
either logs a non-`invite_sent` action or logs `invite_sent` for a pair
whose `has_log` gate was just checked to be closed. -/
theorem invite_try_client_once (event : Event) (dt now todayStart : Int)
    (ok : Nat → Bool) (s : Run) (cli : Client) (h : InviteOnce s.1) :
    InviteOnce (invite_try_client event dt now todayStart ok s cli).1 := by
  rcases invite_try_client_cases event dt now todayStart ok s cli with
    heq | ⟨hok, heq⟩ | ⟨hlog, hok, heq⟩
  · rw [heq]
    exact InviteOnce_log_other _ (by decide) _ _ _ h
  · rw [heq]
    exact InviteOnce_log_other _ (by decide) _ _ _ h
  · intro cid eid
    rw [heq, countLog_log_action]
    have hin : countLog (onSt (fun st =>
          rsvp_upsert st event.eventId cli.clientId (some "") none none none now)
          (emit (Ev.attempt cli.clientId event.eventId "invite" true) s)).1
          "invite_sent" cid eid
        = countLog s.1 "invite_sent" cid eid := by
      simp [onSt, emit, countLog,
        (rsvp_upsert_frame s.1 event.eventId cli.clientId (some "") none none none now).1]
    rw [hin]
    by_cases hp : some cli.clientId = some cid ∧ some event.eventId = some eid
    · rcases hp with ⟨hc, he⟩
      rw [if_pos ⟨rfl, hc, he⟩]
      have h0 := (has_log_false_iff s.1 "invite_sent" cli.clientId event.eventId).1 hlog
      rw [Option.some_inj.1 hc, Option.some_inj.1 he] at h0
      omega
    · rw [if_neg (by rintro ⟨-, hc, he⟩; exact hp ⟨hc, he⟩), Nat.add_zero]
      exact h cid eid

/-- C1: for every `(session, attendee)` pair the delivery ledger keeps at
most one `invite_sent` row, no matter how many times the invite broadcast
runs: `send_initial_invites_for_event` checks `has_log('invite_sent', ...)`
before sending and appends the row only after a successful send, so the
at-most-one invariant is preserved by every run (and hence by any number of
runs over the same pair). -/
theorem invite_sent_at_most_once (st : St) (event : Event) (now todayStart : Int)
    (ok : Nat → Bool) (h : InviteOnce st) :
    InviteOnce (send_initial_invites_for_event st event now todayStart ok).1 := by
  cases hs : event.startAt with
  | none =>
    simp only [send_initial_invites_for_event, hs]
    exact InviteOnce_log_other _ (by decide) _ _ _ h
  | some dt =>
    simp only [send_initial_invites_for_event, hs]
    split_ifs with he
    · exact InviteOnce_log_other _ (by decide) _ _ _
        (foldl_preserve _ (fun s => InviteOnce s.1) _
          (fun s x _ hp => invite_try_client_once event dt now todayStart ok s x hp) _
          (InviteOnce_log_other _ (by decide) _ _ _ h))
    · exact InviteOnce_log_other _ (by decide) _ _ _ h

/-- A one-client, one-event store on which the invite broadcast genuinely
sends (used to instantiate several theorems). -/
def evC1 : Event :=
  { eventId := 10, type := 2, startAt := some 5000, durationMin := 60 }

/-- The store holding `evC1` and one active, eligible client. -/
def stC1 : St :=
  { clients := [{ clientId := 1, tgUserId := some 100, status := "active", documentsCollected := false }]
    events := [evC1], rsvps := [], attendance := [], feedback := [], ledger := [] }

/-- Concrete instantiation of the C1 theorem after a full broadcast run. -/
theorem invite_sent_at_most_once_witness :
    countLog (send_initial_invites_for_event stC1 evC1 0 0 (fun _ => true)).1
      "invite_sent" 1 10 ≤ 1 :=
  invite_sent_at_most_once stC1 evC1 0 0 (fun _ => true)
    (fun _ _ => by simp [countLog, stC1]) 1 10

/-! ## Claim C6: the already-attended invite filter -/

/-- `client_has_attended_type` reads only the attendance and events
tables. -/
theorem client_has_attended_type_congr (st st' : St) (cid tc : Nat)
    (h1 : st'.attendance = st.attendance) (h2 : st'.events = st.events) :
    client_has_attended_type st' cid tc = client_has_attended_type st cid tc := by
  simp [client_has_attended_type, h1, h2]

/-- For any session type other than 4, a candidate who already attended the
type is skipped by the invite loop. -/
theorem invite_try_client_skip_of_attended (event : Event) (dt now todayStart : Int)
    (ok : Nat → Bool) (s : Run) (cli : Client)
    (ht : event.type ≠ 4)
    (ha : client_has_attended_type s.1 cli.clientId event.type = true) :
    invite_try_client event dt now todayStart ok s cli =
      log_action "invite_skip" (some cli.clientId) (some event.eventId) s := by
  unfold invite_try_client
  dsimp only
  by_cases h1 : cli.clientId = 0 ∨
      (match cli.tgUserId with | none => true | some t => decide (t = 0)) = true
  · rw [if_pos h1]
  · rw [if_neg h1, if_pos ⟨ht, ha⟩]

/-- One invite-loop step preserves "no invite attempt to `cid` yet" when
`cid` has attended the (non-type-4) session type, together with the frame
that the loop never writes attendance or events. -/
theorem invite_try_client_c6_step (event : Event) (dt now todayStart : Int)
    (ok : Nat → Bool) (cid : Nat) (st0 : St) (ht : event.type ≠ 4)
    (ha : client_has_attended_type st0 cid event.type = true)
    (s : Run) (cli : Client)
    (hq : s.1.attendance = st0.attendance ∧ s.1.events = st0.events ∧
          ∀ b, Ev.attempt cid event.eventId "invite" b ∉ s.2) :
    (invite_try_client event dt now todayStart ok s cli).1.attendance = st0.attendance ∧
    (invite_try_client event dt now todayStart ok s cli).1.events = st0.events ∧
    ∀ b, Ev.attempt cid event.eventId "invite" b ∉
      (invite_try_client event dt now todayStart ok s cli).2 := by
  rcases hq with ⟨hqa, hqe, hqt⟩
  by_cases hc : cli.clientId = cid
  · have ha' : client_has_attended_type s.1 cli.clientId event.type = true := by
      rw [hc, client_has_attended_type_congr st0 s.1 cid event.type hqa hqe]
      exact ha
    rw [invite_try_client_skip_of_attended event dt now todayStart ok s cli ht ha']
    refine ⟨by simp [log_action, hqa], by simp [log_action, hqe], ?_⟩
    intro b hb
    simp only [log_action, List.mem_append, List.mem_singleton] at hb
    rcases hb with hb | hb
    · exact hqt b hb
    · cases hb
  · rcases invite_try_client_cases event dt now todayStart ok s cli with
      heq | ⟨hok, heq⟩ | ⟨hlog, hok, heq⟩
    · rw [heq]
      refine ⟨by simp [log_action, hqa], by simp [log_action, hqe], ?_⟩
      intro b hb
      simp only [log_action, List.mem_append, List.mem_singleton] at hb
      rcases hb with hb | hb
      · exact hqt b hb
      · cases hb
    · rw [heq]
      refine ⟨by simp [log_action, emit, hqa], by simp [log_action, emit, hqe], ?_⟩
      intro b hb
      simp only [log_action, emit, List.mem_append, List.mem_singleton] at hb
      rcases hb with (hb | hb) | hb
      · exact hqt b hb
      · exact hc (by cases hb; rfl)
      · cases hb
    · rw [heq]
      have hfr := rsvp_upsert_frame s.1 event.eventId cli.clientId (some "") none none none now
      refine ⟨by simp [log_action, emit, onSt, hfr.2.2.2.1, hqa],
        by simp [log_action, emit, onSt, hfr.2.2.1, hqe], ?_⟩
      intro b hb
      simp only [log_action, emit, onSt, List.mem_append, List.mem_singleton] at hb
      rcases hb with (hb | hb) | hb
      · exact hqt b hb
      · exact hc (by cases hb; rfl)
      · cases hb

/-- C6 (amended): for every session type except type 4, an invite is never
attempted to an attendee who already attended a session of that type; the
broadcast also never modifies the attendance or events tables, so the filter
outcome is stable across the run. -/
theorem invite_not_sent_to_attendees (st : St) (event : Event) (now todayStart : Int)
    (ok : Nat → Bool) (cid : Nat) (ht : event.type ≠ 4)
    (ha : client_has_attended_type st cid event.type = true) :
    ∀ b, Ev.attempt cid event.eventId "invite" b ∉
      (send_initial_invites_for_event st event now todayStart ok).2 := by
  have hstart : ∀ b, Ev.attempt cid event.eventId "invite" b ∉
      (log_action "invite_process_start" none (some event.eventId) ((st, []) : Run)).2 := by
    intro b hb
    simp only [log_action, List.nil_append, List.mem_singleton] at hb
    cases hb
  have hskip : ∀ b, Ev.attempt cid event.eventId "invite" b ∉
      (log_action "invite_skip" none (some event.eventId) ((st, []) : Run)).2 := by
    intro b hb
    simp only [log_action, List.nil_append, List.mem_singleton] at hb
    cases hb
  cases hs : event.startAt with
  | none =>
    simp only [send_initial_invites_for_event, hs]
    exact hskip
  | some dt =>
    simp only [send_initial_invites_for_event, hs]
    split_ifs with he
    · have hfold := foldl_preserve (invite_try_client event dt now todayStart ok)
        (fun s => s.1.attendance = st.attendance ∧ s.1.events = st.events ∧
          ∀ b, Ev.attempt cid event.eventId "invite" b ∉ s.2)
        (list_active_clients st)
        (fun s x _ hp => invite_try_client_c6_step event dt now todayStart ok cid st ht ha s x hp)
        (log_action "invite_process_start" none (some event.eventId) ((st, []) : Run))
        ⟨by simp [log_action], by simp [log_action], hstart⟩
      intro b hb
      simp only [log_action, List.mem_append, List.mem_singleton] at hb
      rcases hb with hb | hb
      · exact hfold.2.2 b hb
      · cases hb
    · exact hskip

/-- The future type-4 event of the C6 counterexample store. -/
def evC6 : Event :=
  { eventId := 10, type := 4, startAt := some 5000, durationMin := 60 }

/-- C6 counterexample store: client 1 already attended type-4 event 5 (and
type-1 event 6, which type-4 invites require). -/
def stC6 : St :=
  { clients := [{ clientId := 1, tgUserId := some 100, status := "active", documentsCollected := false }]
    events := [evC6,
      { eventId := 5, type := 4, startAt := some (-100000), durationMin := 60 },
      { eventId := 6, type := 1, startAt := some (-200000), durationMin := 60 }]
    rsvps := [], attendance := [
      { eventId := 5, clientId := 1, attended := true },
      { eventId := 6, clientId := 1, attended := true }]
    feedback := [], ledger := [] }

/-- C6 counterexample: for session type 4 the already-attended filter is
skipped (`if type_code != 4` in the source), so client 1 - who has already
attended a type-4 session - still receives the type-4 invite. -/
theorem invite_attended_type_counterexample :
    client_has_attended_type stC6 1 4 = true ∧
    evC6.type = 4 ∧
    Ev.attempt 1 10 "invite" true ∈
      (send_initial_invites_for_event stC6 evC6 0 0 (fun _ => true)).2 := by
  decide

/-- The future type-2 event of the C6 witness store. -/
def evC6w : Event :=
  { eventId := 20, type := 2, startAt := some 5000, durationMin := 60 }

/-- C6 witness store: client 1 already attended type-2 event 5. -/
def stC6w : St :=
  { clients := [{ clientId := 1, tgUserId := some 100, status := "active", documentsCollected := false }]
    events := [evC6w, { eventId := 5, type := 2, startAt := some (-100000), durationMin := 60 }]
    rsvps := [], attendance := [{ eventId := 5, clientId := 1, attended := true }]
    feedback := [], ledger := [] }

/-- Concrete instantiation of the amended C6 theorem. -/
theorem invite_not_sent_to_attendees_witness :
    Ev.attempt 1 20 "invite" true ∉
      (send_initial_invites_for_event stC6w evC6w 0 0 (fun _ => true)).2 :=
  invite_not_sent_to_attendees stC6w evC6w 0 0 (fun _ => true) 1
    (by decide) (by decide) true

/-! ## Claim C8: the `going` callback and attendance -/

/-- Membership shape of an upsert with value `'going'`: a `'going'` row for
the pair exists afterwards, and every row for the pair reads `'going'`
(no well-formedness assumption needed). -/
theorem rsvp_upsert_going_mem (st : St) (eid cid : Nat) (now : Int) :
    (∃ r ∈ (rsvp_upsert st eid cid (some "going") none none none now).rsvps,
       r.eventId = eid ∧ r.clientId = cid ∧ r.rsvp = "going") ∧
    ∀ r ∈ (rsvp_upsert st eid cid (some "going") none none none now).rsvps,
      r.eventId = eid → r.clientId = cid → r.rsvp = "going" := by
  cases hf : st.rsvps.find? fun r => keyMatch eid cid r.eventId r.clientId with
  | none =>
    constructor
    · refine ⟨Rsvp.mk eid cid "going" false false false now false, ?_, rfl, rfl, rfl⟩
      simp only [rsvp_upsert, hf, List.mem_append, List.mem_singleton]
      exact Or.inr rfl
    · intro r hr h1 h2
      simp only [rsvp_upsert, hf, List.mem_append, List.mem_singleton] at hr
      rcases hr with hr | rfl
      · exact absurd (keyMatch_iff.2 ⟨h1, h2⟩) (List.find?_eq_none.1 hf r hr)
      · rfl
  | some c =>
    have hcm : c ∈ st.rsvps := List.mem_of_find?_eq_some hf
    have hck := @List.find?_some Rsvp
      (fun r => keyMatch eid cid r.eventId r.clientId) c st.rsvps hf
    constructor
    · refine ⟨Rsvp.mk eid cid "going" c.remind24h c.reminded24h c.reminded60m now
        c.postEventSurveySent, ?_, rfl, rfl, rfl⟩
      simp only [rsvp_upsert, hf, List.mem_map]
      exact ⟨c, hcm, by rw [if_pos hck]; rfl⟩
    · intro r hr h1 h2
      simp only [rsvp_upsert, hf, List.mem_map] at hr
      rcases hr with ⟨x, hx, hfx⟩
      by_cases hk : keyMatch eid cid x.eventId x.clientId = true
      · rw [if_pos hk] at hfx
        rw [← hfx]
        rfl
      · rw [if_neg hk] at hfx
        rw [← hfx] at h1 h2
        exact absurd (keyMatch_iff.2 ⟨h1, h2⟩) hk

/-- C8 (amended): the `going` RSVP callback writes only RSVP state.  For
every input the handler leaves the attendance table exactly as it was (in
this revision attendance is marked only by the post-event survey), and on
the successful path - registered attendee, existing future session, no time
conflict - it records `rsvp='going'` for the pair. -/
theorem cb_rsvp_going_rsvp_only (st : St) (now : Int) (tg eid : Nat) (action : String) :
    (cb_rsvp st now tg eid action).1.attendance = st.attendance ∧
    (∀ cli, get_client_by_tg st tg = some cli →
     ∀ ev, get_event_by_id st eid = some ev →
     ∀ T, ev.startAt = some T → now < T →
     client_has_confirmed_event_at_time st cli.clientId T ev.durationMin = false →
     action = "going" →
     (∃ r ∈ (cb_rsvp st now tg eid action).1.rsvps,
        r.eventId = eid ∧ r.clientId = cli.clientId ∧ r.rsvp = "going") ∧
     ∀ r ∈ (cb_rsvp st now tg eid action).1.rsvps,
       r.eventId = eid → r.clientId = cli.clientId → r.rsvp = "going") := by
  constructor
  · unfold cb_rsvp
    cases hcli : get_client_by_tg st tg with
    | none => rfl
    | some cli =>
      cases hev : get_event_by_id st eid with
      | none => rfl
      | some ev =>
        dsimp only
        split_ifs with h1 h2 h3 h4
        · rfl
        · rfl
        · simp [log_action, onSt,
            (rsvp_upsert_frame st eid cli.clientId (some "going") none none none now).2.2.2.1]
        · simp [log_action, onSt,
            (rsvp_upsert_frame st eid cli.clientId (some "declined") none none none now).2.2.2.1]
        · rfl
  · intro cli hcli ev hev T hT hnow hconf hact
    subst hact
    have hns : ¬(T ≤ now) := not_le.2 hnow
    have heq : (cb_rsvp st now tg eid "going").1.rsvps =
        (rsvp_upsert st eid cli.clientId (some "going") none none none now).rsvps := by
      simp [cb_rsvp, hcli, hev, hT, hns, hconf, log_action, onSt]
    rw [heq]
    exact rsvp_upsert_going_mem st eid cli.clientId now

/-- C8 counterexample: on the successful `going` path the handler records
the `'going'` RSVP but writes no attendance row at all - the attendance
table stays empty, so the pair is not marked `attended=true`. -/
theorem cb_rsvp_going_no_attendance_counterexample :
    (∃ r ∈ (cb_rsvp stC1 0 100 10 "going").1.rsvps,
       r.eventId = 10 ∧ r.clientId = 1 ∧ r.rsvp = "going") ∧
    (cb_rsvp stC1 0 100 10 "going").1.attendance = [] := by
  decide

/-- Concrete instantiation of the amended C8 theorem. -/
theorem cb_rsvp_going_rsvp_only_witness :
    (cb_rsvp stC1 0 100 10 "going").1.attendance = stC1.attendance ∧
    ∃ r ∈ (cb_rsvp stC1 0 100 10 "going").1.rsvps,
      r.eventId = 10 ∧ r.clientId = 1 ∧ r.rsvp = "going" :=
  ⟨(cb_rsvp_going_rsvp_only stC1 0 100 10 "going").1,
   ((cb_rsvp_going_rsvp_only stC1 0 100 10 "going").2
      { clientId := 1, tgUserId := some 100, status := "active", documentsCollected := false }
      (by decide) evC1 (by decide) 5000 (by decide) (by decide) (by decide) rfl).1⟩

/-! ## Claim C9: the time-conflict guard on `going` confirmations -/

/-- Two events' half-open intervals `[start, start + duration)` overlap; an
event without a parseable start never overlaps anything (matching the SQL
comparison semantics for NULL). -/
def eventsOverlap (e1 e2 : Event) : Prop :=
  ∃ t1 t2, e1.startAt = some t1 ∧ e2.startAt = some t2 ∧
    t1 < t2 + e2.durationMin * 60 ∧ t2 < t1 + e1.durationMin * 60

/-- The C9 invariant: no attendee holds two `'going'` rsvps on distinct
time-overlapping events. -/
def NoOverlapGoing (st : St) : Prop :=
  ∀ r1 ∈ st.rsvps, ∀ r2 ∈ st.rsvps, r1.clientId = r2.clientId →
    r1.rsvp = "going" → r2.rsvp = "going" → r1.eventId ≠ r2.eventId →
    ∀ e1 ∈ st.events, ∀ e2 ∈ st.events,
      e1.eventId = r1.eventId → e2.eventId = r2.eventId → ¬eventsOverlap e1 e2

/-- The events table's primary-key constraint: event ids identify rows. -/
def EvIdUnique (st : St) : Prop :=
  ∀ e1 ∈ st.events, ∀ e2 ∈ st.events, e1.eventId = e2.eventId → e1 = e2

/-- `NoOverlapGoing` only reads the rsvp and events tables. -/
theorem NoOverlapGoing_of_eq {st1 st2 : St} (hr : st1.rsvps = st2.rsvps)
    (he : st1.events = st2.events) (h : NoOverlapGoing st2) : NoOverlapGoing st1 := by
  intro r1 h1 r2 h2 hcc hg1 hg2 hne e1 he1 e2 he2 hi1 hi2
  rw [hr] at h1 h2
  rw [he] at he1 he2
  exact h r1 h1 r2 h2 hcc hg1 hg2 hne e1 he1 e2 he2 hi1 hi2

/-- Reading back `client_has_confirmed_event_at_time = false`: no `'going'`
row of the client sits on an event whose interval overlaps
`[T, T + d minutes)`. -/
theorem conflict_false_no_overlap (st : St) (cid : Nat) (T d : Int)
    (h : client_has_confirmed_event_at_time st cid T d = false)
    (r : Rsvp) (hr : r ∈ st.rsvps) (hc : r.clientId = cid) (hg : r.rsvp = "going")
    (e : Event) (he : e ∈ st.events) (heid : e.eventId = r.eventId)
    (t : Int) (ht : e.startAt = some t) :
    ¬(t < T + d * 60 ∧ T < t + e.durationMin * 60) := by
  intro hcon
  simp only [client_has_confirmed_event_at_time] at h
  have h1 := List.any_eq_false.1 h r hr
  simp [hc, hg] at h1
  have h2 := h1 e he
  rcases hcon with ⟨ha, hb⟩
  simp [ht, heid, ha, hb] at h2

/-- Membership shape of an upsert with an explicit value: afterwards every
row either is an untouched old row for a different pair, or is a row for the
pair carrying the new value. -/
theorem rsvp_upsert_val_mem_inv (st : St) (eid cid : Nat) (v : String) (now : Int)
    (r : Rsvp)
    (hr : r ∈ (rsvp_upsert st eid cid (some v) none none none now).rsvps) :
    (r ∈ st.rsvps ∧ ¬(r.eventId = eid ∧ r.clientId = cid)) ∨
    (r.eventId = eid ∧ r.clientId = cid ∧ r.rsvp = v) := by
  cases hf : st.rsvps.find? fun x => keyMatch eid cid x.eventId x.clientId with
  | none =>
    simp only [rsvp_upsert, hf, List.mem_append, List.mem_singleton] at hr
    rcases hr with hr | rfl
    · refine Or.inl ⟨hr, fun hk => ?_⟩
      exact absurd (keyMatch_iff.2 hk) (List.find?_eq_none.1 hf r hr)
    · exact Or.inr ⟨rfl, rfl, rfl⟩
  | some c =>
    simp only [rsvp_upsert, hf, List.mem_map] at hr
    rcases hr with ⟨x, hx, hfx⟩
    by_cases hk : keyMatch eid cid x.eventId x.clientId = true
    · rw [if_pos hk] at hfx
      rw [← hfx]
      exact Or.inr ⟨rfl, rfl, rfl⟩
    · rw [if_neg hk] at hfx
      rw [← hfx]
      exact Or.inl ⟨hx, fun hp => hk (keyMatch_iff.2 hp)⟩

/-- A guarded upsert preserves the no-overlapping-going invariant: either
the value is not `'going'`, or the conflict query was checked false for the
target event's window just before the write. -/
theorem rsvp_upsert_preserves_no_overlap (st : St) (eid cid : Nat) (v : String)
    (now : Int) (ev : Event)
    (hu : ∀ e ∈ st.events, e.eventId = eid → e = ev)
    (hguard : v = "going" → ∀ T, ev.startAt = some T →
        client_has_confirmed_event_at_time st cid T ev.durationMin = false)
    (h : NoOverlapGoing st) :
    NoOverlapGoing (rsvp_upsert st eid cid (some v) none none none now) := by
  intro r1 h1 r2 h2 hcc hg1 hg2 hne e1 he1 e2 he2 hi1 hi2
  have hevents := (rsvp_upsert_frame st eid cid (some v) none none none now).2.2.1
  rw [hevents] at he1 he2
  rcases rsvp_upsert_val_mem_inv st eid cid v now r1 h1 with ⟨ho1, hn1⟩ | ⟨hq1, hq2, hq3⟩
  · rcases rsvp_upsert_val_mem_inv st eid cid v now r2 h2 with ⟨ho2, hn2⟩ | ⟨hp1, hp2, hp3⟩
    · exact h r1 ho1 r2 ho2 hcc hg1 hg2 hne e1 he1 e2 he2 hi1 hi2
    · have hv : v = "going" := by rw [← hp3, hg2]
      have he2v : e2 = ev := hu e2 he2 (by rw [hi2, hp1])
      rintro ⟨t1, t2, hs1, hs2, hov1, hov2⟩
      rw [he2v] at hs2
      have hcf := hguard hv t2 hs2
      refine conflict_false_no_overlap st cid t2 ev.durationMin hcf r1 ho1
        (hcc.trans hp2) hg1 e1 he1 hi1 t1 hs1 ⟨?_, ?_⟩
      · rw [he2v] at hov1
        exact hov1
      · exact hov2
  · rcases rsvp_upsert_val_mem_inv st eid cid v now r2 h2 with ⟨ho2, hn2⟩ | ⟨hp1, hp2, hp3⟩
    · have hv : v = "going" := by rw [← hq3, hg1]
      have he1v : e1 = ev := hu e1 he1 (by rw [hi1, hq1])
      rintro ⟨t1, t2, hs1, hs2, hov1, hov2⟩
      rw [he1v] at hs1
      have hcf := hguard hv t1 hs1
      refine conflict_false_no_overlap st cid t1 ev.durationMin hcf r2 ho2
        (hcc.symm.trans hq2) hg2 e2 he2 hi2 t2 hs2 ⟨?_, ?_⟩
      · rw [he1v] at hov2
        exact hov2
      · exact hov1
    · exact absurd (hq1.trans hp1.symm) hne

/-- The `going` branch and the `declined` branch of `cb_rsvp` both preserve
the no-overlapping-going invariant (with the events table keyed by id). -/
theorem cb_rsvp_preserves_no_overlap (st : St) (now : Int) (tg eid : Nat)
    (action : String) (hu : EvIdUnique st) (h : NoOverlapGoing st) :
    NoOverlapGoing (cb_rsvp st now tg eid action).1 := by
  unfold cb_rsvp
  cases hcli : get_client_by_tg st tg with
  | none => exact h
  | some cli =>
    cases hev : get_event_by_id st eid with
    | none => exact h
    | some ev =>
      have hevm : ev ∈ st.events := List.mem_of_find?_eq_some hev
      have hevid : ev.eventId = eid := by
        have := @List.find?_some Event (fun e => decide (e.eventId = eid)) ev st.events hev
        simpa using this
      have huev : ∀ e ∈ st.events, e.eventId = eid → e = ev := fun e he heid =>
        hu e he ev hevm (heid.trans hevid.symm)
      dsimp only
      split_ifs with h1 h2 h3 h4
      · exact h
      · exact h
      · refine NoOverlapGoing_of_eq (by simp [log_action, onSt]) (by simp [log_action, onSt])
          (rsvp_upsert_preserves_no_overlap st eid cli.clientId "going" now ev huev ?_ h)
        intro _ T hT
        rw [hT] at h3
        simpa using h3
      · refine NoOverlapGoing_of_eq (by simp [log_action, onSt]) (by simp [log_action, onSt])
          (rsvp_upsert_preserves_no_overlap st eid cli.clientId "declined" now ev huev ?_ h)
        intro hv
        exact absurd hv (by decide)
      · exact h

/-- `alt_pick` preserves the no-overlapping-going invariant. -/
theorem alt_pick_preserves_no_overlap (st : St) (now : Int) (tg eid : Nat)
    (hu : EvIdUnique st) (h : NoOverlapGoing st) :
    NoOverlapGoing (alt_pick st now tg eid).1 := by
  unfold alt_pick
  cases hcli : get_client_by_tg st tg with
  | none => exact h
  | some cli =>
    cases hev : get_event_by_id st eid with
    | none => exact h
    | some ev =>
      have hevm : ev ∈ st.events := List.mem_of_find?_eq_some hev
      have hevid : ev.eventId = eid := by
        have := @List.find?_some Event (fun e => decide (e.eventId = eid)) ev st.events hev
        simpa using this
      have huev : ∀ e ∈ st.events, e.eventId = eid → e = ev := fun e he heid =>
        hu e he ev hevm (heid.trans hevid.symm)
      dsimp only
      split_ifs with h1
      · exact h
      · refine NoOverlapGoing_of_eq (by simp [log_action, onSt]) (by simp [log_action, onSt])
          (rsvp_upsert_preserves_no_overlap st eid cli.clientId "going" now ev huev ?_ h)
        intro _ T hT
        rw [hT] at h1
        simpa using h1

/-- C9: the implicit time-conflict guard.  When the pressing attendee
already holds `rsvp='going'` on an event overlapping the target's window,
both `cb_rsvp`/`going` and `alt_pick` return with the whole store untouched
(no RSVP row is written); and both handlers, on every input, preserve the
invariant that no attendee holds two `'going'` rsvps on distinct
time-overlapping events. -/
theorem going_time_conflict_guard (st : St) (now : Int) (tg eid : Nat)
    (hu : EvIdUnique st) (h : NoOverlapGoing st) :
    (∀ cli, get_client_by_tg st tg = some cli →
     ∀ ev, get_event_by_id st eid = some ev →
     ∀ T, ev.startAt = some T →
     client_has_confirmed_event_at_time st cli.clientId T ev.durationMin = true →
     cb_rsvp st now tg eid "going" = (st, []) ∧ alt_pick st now tg eid = (st, [])) ∧
    (∀ action, NoOverlapGoing (cb_rsvp st now tg eid action).1) ∧
    NoOverlapGoing (alt_pick st now tg eid).1 := by
  refine ⟨?_, fun action => cb_rsvp_preserves_no_overlap st now tg eid action hu h,
    alt_pick_preserves_no_overlap st now tg eid hu h⟩
  intro cli hcli ev hev T hT hconf
  constructor
  · simp only [cb_rsvp, hcli, hev, hT]
    by_cases hs : T ≤ now
    · simp [hs]
    · simp [hs, hconf]
  · simp only [alt_pick, hcli, hev, hT]
    simp [hconf]

/-- Target event of the C9 witness store. -/
def evC9a : Event :=
  { eventId := 1, type := 2, startAt := some 10000, durationMin := 60 }

/-- Overlapping already-confirmed event of the C9 witness store. -/
def evC9b : Event :=
  { eventId := 2, type := 3, startAt := some 9000, durationMin := 60 }

/-- C9 witness store: client 1 is `'going'` on event 2, which overlaps
event 1's window. -/
def stC9 : St :=
  { clients := [{ clientId := 1, tgUserId := some 100, status := "active", documentsCollected := false }]
    events := [evC9a, evC9b]
    rsvps := [Rsvp.mk 2 1 "going" false false false 0 false]
    attendance := [], feedback := [], ledger := [] }

/-- Concrete instantiation of the C9 theorem: the conflicting `going` press
leaves the store untouched. -/
theorem going_time_conflict_guard_witness :
    cb_rsvp stC9 0 100 1 "going" = (stC9, []) := by
  have hno : NoOverlapGoing stC9 := by
    intro r1 h1 r2 h2 hcc hg1 hg2 hne e1 he1 e2 he2 hi1 hi2
    simp only [stC9, List.mem_singleton] at h1 h2
    subst h1
    subst h2
    exact absurd rfl hne
  exact ((going_time_conflict_guard stC9 0 100 1 (by unfold EvIdUnique; decide) hno).1
    (Client.mk 1 (some 100) "active" false) (by decide) evC9a (by decide)
    10000 (by decide) (by decide)).1

/-! ## Claim C5: feedback merge and single escalation -/

/-- Trace classifier: is this event the support-channel escalation alert? -/
def Ev.isSupportAlert : Ev → Bool
  | Ev.supportAlert _ _ _ => true
  | _ => false

/-- Trace classifier: is this event the supplementary support note? -/
def Ev.isSupportNote : Ev → Bool
  | Ev.supportNote _ _ _ => true
  | _ => false

/-- `route_low_feedback` leaves the feedback table unchanged and emits
exactly one escalation alert and no supplementary note, whatever the send
outcomes. -/
theorem route_low_feedback_shape (eid cid : Nat) (okS : Bool) (admins : List Nat)
    (okA : Nat → Bool) (s : Run) :
    (route_low_feedback eid cid okS admins okA s).1.feedback = s.1.feedback ∧
    (route_low_feedback eid cid okS admins okA s).2.countP Ev.isSupportAlert =
      s.2.countP Ev.isSupportAlert + 1 ∧
    (route_low_feedback eid cid okS admins okA s).2.countP Ev.isSupportNote =
      s.2.countP Ev.isSupportNote := by
  unfold route_low_feedback
  dsimp only
  split_ifs with hok
  · refine ⟨?_, ?_, ?_⟩ <;>
      simp [log_action, emit, List.countP_append, List.countP_cons,
        Ev.isSupportAlert, Ev.isSupportNote]
  · refine foldl_preserve _ (fun r : Run =>
        r.1.feedback = s.1.feedback ∧
        r.2.countP Ev.isSupportAlert = s.2.countP Ev.isSupportAlert + 1 ∧
        r.2.countP Ev.isSupportNote = s.2.countP Ev.isSupportNote) admins
      (fun r a _ hp => ?_) _ ?_
    · split_ifs with ha <;>
        exact ⟨by simp [log_action, hp.1],
          by simp [log_action, List.countP_append, List.countP_cons,
            Ev.isSupportAlert, hp.2.1],
          by simp [log_action, List.countP_append, List.countP_cons,
            Ev.isSupportNote, hp.2.2]⟩
    · refine ⟨by simp [log_action, emit], ?_, ?_⟩ <;>
        simp [log_action, emit, List.countP_append, List.countP_cons,
          Ev.isSupportAlert, Ev.isSupportNote]

/-- `route_low_feedback_comment_update` leaves the feedback table unchanged
and emits exactly one supplementary note and no escalation alert. -/
theorem route_low_feedback_comment_update_shape (eid cid : Nat) (okS : Bool) (s : Run) :
    (route_low_feedback_comment_update eid cid okS s).1.feedback = s.1.feedback ∧
    (route_low_feedback_comment_update eid cid okS s).2.countP Ev.isSupportAlert =
      s.2.countP Ev.isSupportAlert ∧
    (route_low_feedback_comment_update eid cid okS s).2.countP Ev.isSupportNote =
      s.2.countP Ev.isSupportNote + 1 := by
  unfold route_low_feedback_comment_update
  dsimp only
  split_ifs with hok <;>
    refine ⟨?_, ?_, ?_⟩ <;>
      simp [log_action, emit, List.countP_append, List.countP_cons,
        Ev.isSupportAlert, Ev.isSupportNote]

/-- C5: submitting `stars` (below 4) and later a comment in a separate
interaction yields a single merged feedback row carrying both fields, and
exactly one escalation alert, fired on the stars submission; the later
comment produces exactly one supplementary note and no further alert. -/
theorem feedback_merge_single_escalation (st : St) (eid cid stars : Nat)
    (text : String) (okS okN : Bool) (admins : List Nat) (okA : Nat → Bool)
    (h0 : fbKeyCount st eid cid = 0) (hs4 : stars < 4) (hs0 : stars ≠ 0)
    (hd : text ≠ "-") (hne : text ≠ "") :
    fbKeyCount (fb_wait_comment (fb_callbacks_stars st eid cid stars okS admins okA).1
        eid cid text okN).1 eid cid = 1 ∧
    (∀ f ∈ (fb_wait_comment (fb_callbacks_stars st eid cid stars okS admins okA).1
        eid cid text okN).1.feedback,
      f.eventId = eid → f.clientId = cid → f.stars = stars ∧ f.comment = text) ∧
    (fb_callbacks_stars st eid cid stars okS admins okA).2.countP Ev.isSupportAlert = 1 ∧
    (fb_wait_comment (fb_callbacks_stars st eid cid stars okS admins okA).1
        eid cid text okN).2.countP Ev.isSupportAlert = 0 ∧
    (fb_wait_comment (fb_callbacks_stars st eid cid stars okS admins okA).1
        eid cid text okN).2.countP Ev.isSupportNote = 1 := by
  have h0' : ∀ f ∈ st.feedback, ¬(keyMatch eid cid f.eventId f.clientId = true) := by
    rw [fbKeyCount, List.countP_eq_zero] at h0
    exact h0
  have hf1 : st.feedback.find? (fun f => keyMatch eid cid f.eventId f.clientId) = none :=
    List.find?_eq_none.2 h0'
  have hup1 : feedback_upsert st eid cid (some stars) none =
      ({ st with feedback := st.feedback ++ [Feedback.mk eid cid stars "" ""] },
        Feedback.mk eid cid stars "" "") := by
    simp [feedback_upsert, hf1]
  have hs1 : fb_callbacks_stars st eid cid stars okS admins okA =
      log_action "low_fb_alert_sent" (some cid) (some eid)
        (route_low_feedback eid cid okS admins okA
          ({ st with feedback := st.feedback ++ [Feedback.mk eid cid stars "" ""] }, [])) := by
    rw [fb_callbacks_stars, hup1, if_pos hs4]
  obtain ⟨hrf, hra, hrn⟩ := route_low_feedback_shape eid cid okS admins okA
      ({ st with feedback := st.feedback ++ [Feedback.mk eid cid stars "" ""] }, [])
  have hs1fb : (fb_callbacks_stars st eid cid stars okS admins okA).1.feedback =
      st.feedback ++ [Feedback.mk eid cid stars "" ""] := by
    rw [hs1]
    simpa [log_action] using hrf
  have hs1a : (fb_callbacks_stars st eid cid stars okS admins okA).2.countP
      Ev.isSupportAlert = 1 := by
    rw [hs1]
    simp only [log_action, List.countP_append, List.countP_cons, hra]
    simp [Ev.isSupportAlert]
  have hkF : keyMatch eid cid (Feedback.mk eid cid stars "" "").eventId
      (Feedback.mk eid cid stars "" "").clientId = true := by
    simp [keyMatch]
  have hfind2 : (fb_callbacks_stars st eid cid stars okS admins okA).1.feedback.find?
      (fun f => keyMatch eid cid f.eventId f.clientId) = some (Feedback.mk eid cid stars "" "") := by
    rw [hs1fb, List.find?_append, hf1]
    simp [hkF]
  have hup2 : feedback_upsert (fb_callbacks_stars st eid cid stars okS admins okA).1
      eid cid none (some text) =
      ({ (fb_callbacks_stars st eid cid stars okS admins okA).1 with
          feedback := (fb_callbacks_stars st eid cid stars okS admins okA).1.feedback.map
            (fun f => if keyMatch eid cid f.eventId f.clientId then
              Feedback.mk eid cid stars text "" else f) },
        Feedback.mk eid cid stars text "") := by
    simp [feedback_upsert, hfind2]
  have hmap : (fb_callbacks_stars st eid cid stars okS admins okA).1.feedback.map
      (fun f => if keyMatch eid cid f.eventId f.clientId then
        Feedback.mk eid cid stars text "" else f) =
      st.feedback ++ [Feedback.mk eid cid stars text ""] := by
    rw [hs1fb, List.map_append]
    congr 1
    · rw [List.map_congr_left (fun x hx => if_neg (h0' x hx))]
      exact List.map_id' st.feedback
    · simp [hkF]
  have hwc : fb_wait_comment (fb_callbacks_stars st eid cid stars okS admins okA).1
      eid cid text okN =
      route_low_feedback_comment_update eid cid okN
        ({ (fb_callbacks_stars st eid cid stars okS admins okA).1 with
            feedback := st.feedback ++ [Feedback.mk eid cid stars text ""] }, []) := by
    rw [fb_wait_comment]
    dsimp only
    rw [if_neg hd, hup2, hmap]
    dsimp only
    rw [if_pos ⟨hs0, hs4, hne⟩]
  obtain ⟨hcf, hca, hcn⟩ := route_low_feedback_comment_update_shape eid cid okN
      ({ (fb_callbacks_stars st eid cid stars okS admins okA).1 with
          feedback := st.feedback ++ [Feedback.mk eid cid stars text ""] }, [])
  have hfb2 : (fb_wait_comment (fb_callbacks_stars st eid cid stars okS admins okA).1
      eid cid text okN).1.feedback = st.feedback ++ [Feedback.mk eid cid stars text ""] := by
    rw [hwc, hcf]
  refine ⟨?_, ?_, hs1a, ?_, ?_⟩
  · rw [fbKeyCount, hfb2, List.countP_append]
    rw [fbKeyCount] at h0
    rw [h0]
    simp [hkF, List.countP_cons, keyMatch]
  · intro f hf h1 h2
    rw [hfb2] at hf
    rcases List.mem_append.1 hf with hf | hf
    · exact absurd (keyMatch_iff.2 ⟨h1, h2⟩) (h0' f hf)
    · rcases List.mem_singleton.1 hf with rfl
      exact ⟨rfl, rfl⟩
  · rw [hwc, hca]
    rfl
  · rw [hwc, hcn]
    rfl

/-- Concrete instantiation of the C5 theorem: stars 2 then "bad audio". -/
theorem feedback_merge_single_escalation_witness :
    fbKeyCount (fb_wait_comment (fb_callbacks_stars stC1 10 1 2 true [] (fun _ => true)).1
        10 1 "bad audio" true).1 10 1 = 1 ∧
    (fb_callbacks_stars stC1 10 1 2 true [] (fun _ => true)).2.countP Ev.isSupportAlert = 1 :=
  ⟨(feedback_merge_single_escalation stC1 10 1 2 "bad audio" true true [] (fun _ => true)
      (by decide) (by decide) (by decide) (by decide) (by decide)).1,
   (feedback_merge_single_escalation stC1 10 1 2 "bad audio" true true [] (fun _ => true)
      (by decide) (by decide) (by decide) (by decide) (by decide)).2.2.1⟩

/-! ## Claim C2: monotone 24h-reminder flag -/

/-- Row property behind the C2 invariant: every rsvp row of the pair either
has its `reminded_24h` flag set or is not a `'going'` rsvp (a row that can
never be selected by the 24h branch). -/
def RowP24 (eid cid : Nat) (st : St) : Prop :=
  ∀ r ∈ st.rsvps, r.eventId = eid → r.clientId = cid →
    r.reminded24h = true ∨ r.rsvp ≠ "going"

/-- `RowP24` only reads the rsvp table. -/
theorem RowP24_of_eq {eid cid : Nat} {st1 st2 : St} (h : st1.rsvps = st2.rsvps)
    (hp : RowP24 eid cid st2) : RowP24 eid cid st1 := by
  intro r hr
  rw [h] at hr
  exact hp r hr

/-- The tick's upserts (which pass `rsvp = None` and either leave
`reminded_24h` alone or set it to true) preserve `RowP24`: an update keeps
or raises the flag and keeps the rsvp value; an insert creates a row with
the empty rsvp value. -/
theorem rowP24_upsert (eid cid eid' cid' : Nat) (b d : Option Bool) (now : Int)
    (st : St) (hb : b = none ∨ b = some true) (h : RowP24 eid cid st) :
    RowP24 eid cid (rsvp_upsert st eid' cid' none none b d now) := by
  intro r hr h1 h2
  cases hf : st.rsvps.find? fun x => keyMatch eid' cid' x.eventId x.clientId with
  | none =>
    simp only [rsvp_upsert, hf, List.mem_append, List.mem_singleton] at hr
    rcases hr with hr | rfl
    · exact h r hr h1 h2
    · right
      simp
  | some c =>
    simp only [rsvp_upsert, hf, List.mem_map] at hr
    rcases hr with ⟨x, hx, hfx⟩
    by_cases hk : keyMatch eid' cid' x.eventId x.clientId = true
    · rw [if_pos hk] at hfx
      subst hfx
      have hck := @List.find?_some Rsvp
        (fun x => keyMatch eid' cid' x.eventId x.clientId) c st.rsvps hf
      have hcm := List.mem_of_find?_eq_some hf
      rcases keyMatch_iff.1 hck with ⟨hce, hcc⟩
      have he' : eid' = eid := by simpa using h1
      have hc' : cid' = cid := by simpa using h2
      have hcp := h c hcm (by rw [hce, he']) (by rw [hcc, hc'])
      rcases hb with rfl | rfl
      · simpa using hcp
      · left
        simp
    · rw [if_neg hk] at hfx
      subst hfx
      exact h x hx h1 h2

/-- `set_post_event_survey_sent` preserves `RowP24` (it touches only the
survey flag). -/
theorem rowP24_set_post (eid cid eid' cid' : Nat) (st : St) (h : RowP24 eid cid st) :
    RowP24 eid cid (set_post_event_survey_sent st eid' cid') := by
  intro r hr h1 h2
  simp only [set_post_event_survey_sent, List.mem_map] at hr
  rcases hr with ⟨x, hx, hfx⟩
  by_cases hk : keyMatch eid' cid' x.eventId x.clientId = true
  · rw [if_pos hk] at hfx
    subst hfx
    exact h x hx h1 h2
  · rw [if_neg hk] at hfx
    subst hfx
    exact h x hx h1 h2

/-- The C2 run invariant: the row property holds and no 24h-reminder
attempt for the pair has been traced. -/
def Inv24 (eid cid : Nat) (s : Run) : Prop :=
  RowP24 eid cid s.1 ∧ ∀ b, Ev.attempt cid eid "remind_24h" b ∉ s.2

/-- `log_action` preserves the C2 invariant. -/
theorem log_action_inv24 (eid cid : Nat) (a : String) (c e : Option Nat) (s : Run)
    (hI : Inv24 eid cid s) : Inv24 eid cid (log_action a c e s) := by
  refine ⟨RowP24_of_eq (by simp [log_action]) hI.1, ?_⟩
  intro b hb
  simp only [log_action, List.mem_append, List.mem_singleton] at hb
  rcases hb with hb | hb
  · exact hI.2 b hb
  · cases hb

/-- One row of the 24h loop preserves the C2 invariant: a pair row is
either skipped at the `reminded_24h` check or at the `rsvp = 'going'` check,
so a 24h attempt for the pair is never emitted; other rows' sends and flag
updates do not touch the pair. -/
theorem tick24_step (eid cid : Nat) (e : Event) (now : Int) (ok : Nat → Nat → Bool)
    (s : Run) (r : Rsvp) (hre : r.eventId = e.eventId)
    (hrp : r.eventId = eid → r.clientId = cid → r.reminded24h = true ∨ r.rsvp ≠ "going")
    (hI : Inv24 eid cid s) : Inv24 eid cid (tick_remind_24h_client e now ok s r) := by
  unfold tick_remind_24h_client
  dsimp only
  cases htg : try_get_tg_from_client_id s.1 r.clientId with
  | none => exact hI
  | some tg =>
    dsimp only
    cases hcl : get_client_by_tg s.1 tg with
    | none => exact hI
    | some client =>
      dsimp only
      split_ifs with h1 h2 h3 h4
      · exact hI
      · exact hI
      · have hnp : ¬(r.clientId = cid ∧ e.eventId = eid) := by
          rintro ⟨hc, he⟩
          rcases hrp (by rw [hre, he]) hc with hf | hg
          · exact h2 hf
          · exact hg h3
        constructor
        · exact rowP24_upsert eid cid e.eventId r.clientId (some true) none now s.1
            (Or.inr rfl) hI.1
        · intro b hb
          simp only [log_action, onSt, emit, List.mem_append, List.mem_singleton] at hb
          rcases hb with (hb | hb) | hb
          · exact hI.2 b hb
          · simp only [Ev.attempt.injEq] at hb
            exact hnp ⟨hb.1.symm, hb.2.1.symm⟩
          · cases hb
      · have hnp : ¬(r.clientId = cid ∧ e.eventId = eid) := by
          rintro ⟨hc, he⟩
          rcases hrp (by rw [hre, he]) hc with hf | hg
          · exact h2 hf
          · exact hg h3
        refine ⟨hI.1, ?_⟩
        intro b hb
        simp only [emit, List.mem_append, List.mem_singleton] at hb
        rcases hb with hb | hb
        · exact hI.2 b hb
        · simp only [Ev.attempt.injEq] at hb
          exact hnp ⟨hb.1.symm, hb.2.1.symm⟩
      · exact hI

/-- One row of the 60m loop preserves the C2 invariant (its attempts carry
the `remind_60m` kind and its upsert leaves `reminded_24h` alone). -/
theorem tick60_step (eid cid : Nat) (e : Event) (now : Int) (ok : Nat → Nat → Bool)
    (s : Run) (r : Rsvp) (hI : Inv24 eid cid s) :
    Inv24 eid cid (tick_remind_60m_client e now ok s r) := by
  unfold tick_remind_60m_client
  dsimp only
  cases htg : try_get_tg_from_client_id s.1 r.clientId with
  | none => exact hI
  | some tg =>
    dsimp only
    cases hcl : get_client_by_tg s.1 tg with
    | none => exact hI
    | some client =>
      dsimp only
      split_ifs with h1 h2 h3 h4
      · exact hI
      · exact hI
      · constructor
        · exact rowP24_upsert eid cid e.eventId r.clientId none (some true) now s.1
            (Or.inl rfl) hI.1
        · intro b hb
          simp only [log_action, onSt, emit, List.mem_append, List.mem_singleton] at hb
          rcases hb with (hb | hb) | hb
          · exact hI.2 b hb
          · simp only [Ev.attempt.injEq] at hb
            exact absurd hb.2.2.1 (by decide)
          · cases hb
      · refine ⟨hI.1, ?_⟩
        intro b hb
        simp only [emit, List.mem_append, List.mem_singleton] at hb
        rcases hb with hb | hb
        · exact hI.2 b hb
        · simp only [Ev.attempt.injEq] at hb
          exact absurd hb.2.2.1 (by decide)
      · exact hI

/-- One row of the post-event-survey loop preserves the C2 invariant. -/
theorem tickSurvey_step (eid cid : Nat) (e : Event) (ok : Nat → Nat → Bool)
    (s : Run) (r : Rsvp) (hI : Inv24 eid cid s) :
    Inv24 eid cid (tick_survey_client e ok s r) := by
  unfold tick_survey_client
  dsimp only
  cases htg : try_get_tg_from_client_id s.1 r.clientId with
  | none => exact hI
  | some tg =>
    dsimp only
    cases hcl : get_client_by_tg s.1 tg with
    | none => exact hI
    | some client =>
      dsimp only
      split_ifs with h1 h2
      · exact hI
      · constructor
        · exact rowP24_set_post eid cid e.eventId r.clientId s.1 hI.1
        · intro b hb
          simp only [log_action, onSt, emit, List.mem_append, List.mem_singleton] at hb
          rcases hb with (hb | hb) | hb
          · exact hI.2 b hb
          · simp only [Ev.attempt.injEq] at hb
            exact absurd hb.2.2.1 (by decide)
          · cases hb
      · refine ⟨hI.1, ?_⟩
        intro b hb
        simp only [emit, List.mem_append, List.mem_singleton] at hb
        rcases hb with hb | hb
        · exact hI.2 b hb
        · simp only [Ev.attempt.injEq] at hb
          exact absurd hb.2.2.1 (by decide)

/-- The whole 24h loop preserves the C2 invariant; the rows it processes are
a snapshot of the entry state, whose pair rows satisfy the row property. -/
theorem branch24_inv (eid cid : Nat) (e : Event) (now : Int) (ok : Nat → Nat → Bool)
    (s : Run) (hI : Inv24 eid cid s) :
    Inv24 eid cid ((rsvp_get_for_event s.1 e.eventId).foldl (tick_remind_24h_client e now ok) s) := by
  refine foldl_preserve _ (Inv24 eid cid) _ (fun s' r hrmem hI' => ?_) s hI
  have hmem := List.mem_filter.1 hrmem
  have hre : r.eventId = e.eventId := by simpa using hmem.2
  exact tick24_step eid cid e now ok s' r hre (hI.1 r hmem.1) hI'

/-- The whole 60m loop preserves the C2 invariant. -/
theorem branch60_inv (eid cid : Nat) (e : Event) (now : Int) (ok : Nat → Nat → Bool)
    (s : Run) (hI : Inv24 eid cid s) :
    Inv24 eid cid ((rsvp_get_for_event s.1 e.eventId).foldl (tick_remind_60m_client e now ok) s) :=
  foldl_preserve _ (Inv24 eid cid) _ (fun s' r _ hI' => tick60_step eid cid e now ok s' r hI') s hI

/-- Any post-event-survey loop preserves the C2 invariant. -/
theorem branchSurv_inv (eid cid : Nat) (e : Event) (ok : Nat → Nat → Bool)
    (l : List Rsvp) (s : Run) (hI : Inv24 eid cid s) :
    Inv24 eid cid (l.foldl (tick_survey_client e ok) s) :=
  foldl_preserve _ (Inv24 eid cid) _ (fun s' r _ hI' => tickSurvey_step eid cid e ok s' r hI') s hI

set_option maxHeartbeats 2000000 in
/-- The per-event tick body preserves the C2 invariant. -/
theorem tick_event_inv (eid cid : Nat) (now : Int) (ok : Nat → Nat → Bool)
    (s : Run) (e : Event) (hI : Inv24 eid cid s) :
    Inv24 eid cid (tick_event now ok s e) := by
  unfold tick_event
  cases hse : e.startAt with
  | none => exact hI
  | some dt =>
    dsimp only
    have hs1 : ∀ s' : Run, Inv24 eid cid s' → Inv24 eid cid (tick_branch_24h e now ok s') :=
      fun s' h' => branch24_inv eid cid e now ok s' h'
    have hs2 : ∀ s' : Run, Inv24 eid cid s' → Inv24 eid cid (tick_branch_60m e now ok s') :=
      fun s' h' => branch60_inv eid cid e now ok s' h'
    have hs3 : ∀ s' : Run, Inv24 eid cid s' → Inv24 eid cid (tick_branch_survey e ok s') := by
      intro s' h'
      unfold tick_branch_survey
      dsimp only
      split_ifs with g1 g2
      · exact h'
      · exact log_action_inv24 _ _ _ _ _ _ h'
      · exact branchSurv_inv _ _ _ _ _ _ (log_action_inv24 _ _ _ _ _ _ h')
    split_ifs <;>
      first
        | exact hI
        | exact hs1 _ hI
        | exact hs2 _ hI
        | exact hs2 _ (hs1 _ hI)
        | exact hs3 _ hI
        | exact hs3 _ (hs1 _ hI)
        | exact hs3 _ (hs2 _ hI)
        | exact hs3 _ (hs2 _ (hs1 _ hI))

/-- C2: once `reminded_24h` is true on every rsvp row of a pair, no
scheduler tick ever attempts another 24h reminder for that pair - the tick
skips flagged rows, and no tick operation resets the flag or creates a
`'going'` row for the pair. -/
theorem reminded24h_no_resend (st : St) (now : Int) (ok : Nat → Nat → Bool) (eid cid : Nat)
    (h : ∀ r ∈ st.rsvps, r.eventId = eid → r.clientId = cid → r.reminded24h = true) :
    ∀ b, Ev.attempt cid eid "remind_24h" b ∉ (scheduler_tick st now ok).2 := by
  have hfin : Inv24 eid cid (scheduler_tick st now ok) := by
    unfold scheduler_tick
    refine foldl_preserve _ (Inv24 eid cid) _
      (fun s e _ hI => tick_event_inv eid cid now ok s e hI) _ ?_
    exact ⟨fun r hr h1 h2 => Or.inl (h r hr h1 h2), fun b hb => by cases hb⟩
  exact hfin.2

/-- One-event, one-attendee store with `reminded_24h` already set, evaluated
inside the 24h window. -/
def stC2 : St :=
  { clients := [{ clientId := 1, tgUserId := some 100, status := "active", documentsCollected := false }]
    events := [{ eventId := 7, type := 2, startAt := some 10000, durationMin := 60 }]
    rsvps := [Rsvp.mk 7 1 "going" false true false 0 false]
    attendance := [], feedback := [], ledger := [] }

/-- Concrete instantiation of the C2 theorem: a tick inside the 24h window
(start 10000, now 6400) sends nothing to the flagged pair. -/
theorem reminded24h_no_resend_witness :
    Ev.attempt 1 7 "remind_24h" true ∉ (scheduler_tick stC2 6400 (fun _ _ => true)).2 :=
  reminded24h_no_resend stC2 6400 (fun _ _ => true) 7 1 (by decide) true

/-! ## Claim C7: ledger writes versus send attempts -/

/-- The per-attendee idempotency-guard ledger actions, mapped to the send
kind they guard.  The session-level `post_event_survey_requested` guard is
deliberately absent: the source writes it before the batch. -/
def guardKind : String → Option String
  | "invite_sent" => some "invite"
  | "remind_24h_sent" => some "remind_24h"
  | "remind_60m_sent" => some "remind_60m"
  | "post_event_survey_sent" => some "post_event_survey"
  | _ => none

/-- A trace is guard-correct when every per-attendee guard ledger write for
a pair is preceded, earlier in the trace, by a successful send attempt of
the guarded kind to that same pair. -/
def GuardOk (tr : List Ev) : Prop :=
  ∀ xs a cid eid k ys, tr = xs ++ Ev.ledgerWrite a (some cid) (some eid) :: ys →
    guardKind a = some k → Ev.attempt cid eid k true ∈ xs

/-- A trace whose per-attendee ledger writes are all non-guard actions is
guard-correct. -/
theorem guardOk_nonguard (l : List Ev)
    (hl : ∀ x ∈ l, ∀ a cid eid, x = Ev.ledgerWrite a (some cid) (some eid) →
      guardKind a = none) :
    GuardOk l := by
  intro xs a cid eid k ys h hk
  have hmem : Ev.ledgerWrite a (some cid) (some eid) ∈ l := by
    rw [h]
    exact List.mem_append_right _ (List.mem_cons_self _ _)
  rw [hl _ hmem a cid eid rfl] at hk
  cases hk

/-- The empty trace is guard-correct. -/
theorem guardOk_nil : GuardOk [] :=
  guardOk_nonguard [] (by intro x hx; cases hx)

/-- Guard-correctness is closed under concatenation. -/
theorem guardOk_append {t1 t2 : List Ev} (h1 : GuardOk t1) (h2 : GuardOk t2) :
    GuardOk (t1 ++ t2) := by
  intro xs a cid eid k ys h hk
  rcases List.append_eq_append_iff.1 h.symm with ⟨m, hm1, hm2⟩ | ⟨m, hm1, hm2⟩
  · -- t1 = xs ++ m and w :: ys = m ++ t2 (split point inside or at t1's end)
    cases m with
    | nil =>
      -- t1 = xs, t2 = w :: ys
      have := h2 [] a cid eid k ys (by simpa using hm2.symm) hk
      cases this
    | cons b bs =>
      have hb : b = Ev.ledgerWrite a (some cid) (some eid) ∧ ys = bs ++ t2 := by
        have := hm2
        simp only [List.cons_append] at this
        exact ⟨(List.cons.injEq _ _ _ _ ▸ this).1.symm, (List.cons.injEq _ _ _ _ ▸ this).2⟩
      rw [hb.1] at hm1
      exact h1 xs a cid eid k bs hm1 hk
  · -- xs = t1 ++ m and t2 = m ++ w :: ys (split point inside t2)
    have := h2 m a cid eid k ys hm2 hk
    rw [hm1]
    exact List.mem_append_right _ this

/-- A single non-guard ledger write is guard-correct. -/
theorem guardOk_single_lw (a : String) (c e : Option Nat) (ha : guardKind a = none) :
    GuardOk [Ev.ledgerWrite a c e] := by
  refine guardOk_nonguard _ ?_
  intro x hx a' cid eid hxe
  rcases List.mem_singleton.1 hx
  injection hxe with h1 h2 h3
  rw [← h1]
  exact ha

/-- A failed attempt followed by a non-guard ledger write is guard-correct. -/
theorem guardOk_att_lw (cid eid : Nat) (k : String) (b : Bool) (a : String)
    (c e : Option Nat) (ha : guardKind a = none) :
    GuardOk [Ev.attempt cid eid k b, Ev.ledgerWrite a c e] := by
  refine guardOk_nonguard _ ?_
  intro x hx a' cid' eid' hxe
  rcases List.mem_cons.1 hx with rfl | hx
  · cases hxe
  · rcases List.mem_singleton.1 hx
    injection hxe with h1 h2 h3
    rw [← h1]
    exact ha

/-- A successful attempt immediately followed by its own guard write is
guard-correct. -/
theorem guardOk_pair (cid eid : Nat) (k : String) (a : String)
    (ha : guardKind a = some k) :
    GuardOk [Ev.attempt cid eid k true, Ev.ledgerWrite a (some cid) (some eid)] := by
  intro xs a' cid' eid' k' ys h hk
  cases xs with
  | nil =>
    simp only [List.nil_append, List.cons.injEq] at h
    cases h.1
  | cons b bs =>
    simp only [List.cons_append, List.cons.injEq] at h
    rcases h with ⟨rfl, h2⟩
    cases bs with
    | nil =>
      simp only [List.nil_append, List.cons.injEq] at h2
      injection h2.1 with i1 i2 i3
      rw [← i1, ha] at hk
      injection hk with hkk
      have hc : cid' = cid := (Option.some_inj.1 i2).symm
      have he : eid' = eid := (Option.some_inj.1 i3).symm
      rw [hc, he, ← hkk]
      exact List.mem_singleton.2 rfl
    | cons d ds =>
      simp only [List.cons_append, List.cons.injEq] at h2
      rcases h2 with ⟨rfl, h3⟩
      have := congrArg List.length h3
      simp at this
      omega

/-- A lone attempt event is guard-correct. -/
theorem guardOk_single_att (cid eid : Nat) (k : String) (b : Bool) :
    GuardOk [Ev.attempt cid eid k b] := by
  refine guardOk_nonguard _ ?_
  rintro x hx a c e hxe
  rcases List.mem_singleton.1 hx
  cases hxe

/-- Logging a non-guard action preserves guard-correctness. -/
theorem log_action_guard (a : String) (ha : guardKind a = none) (c e : Option Nat)
    (s : Run) (h : GuardOk s.2) : GuardOk (log_action a c e s).2 := by
  simp only [log_action]
  exact guardOk_append h (guardOk_single_lw _ _ _ ha)

/-- Each invite-loop candidate extends the trace guard-correctly: a skip
adds an audit row, a failure adds the attempt and an error row, and a
success adds the attempt immediately followed by its `invite_sent` guard. -/
theorem invite_try_client_guard (event : Event) (dt now todayStart : Int)
    (ok : Nat → Bool) (s : Run) (cli : Client) (h : GuardOk s.2) :
    GuardOk (invite_try_client event dt now todayStart ok s cli).2 := by
  rcases invite_try_client_cases event dt now todayStart ok s cli with
    heq | ⟨hok, heq⟩ | ⟨hlog, hok, heq⟩ <;> rw [heq]
  · exact log_action_guard _ (by decide) _ _ _ h
  · simp only [log_action, emit]
    rw [List.append_assoc]
    exact guardOk_append h (guardOk_att_lw _ _ _ _ _ _ _ (by decide))
  · simp only [log_action, emit, onSt]
    rw [List.append_assoc]
    exact guardOk_append h (guardOk_pair _ _ _ _ (by decide))

/-- The invite broadcast's trace is guard-correct. -/
theorem invite_broadcast_guard (st : St) (event : Event) (now todayStart : Int)
    (ok : Nat → Bool) :
    GuardOk (send_initial_invites_for_event st event now todayStart ok).2 := by
  cases hs : event.startAt with
  | none =>
    simp only [send_initial_invites_for_event, hs]
    exact log_action_guard _ (by decide) _ _ _ guardOk_nil
  | some dt =>
    simp only [send_initial_invites_for_event, hs]
    split_ifs with he
    · refine log_action_guard _ (by decide) _ _ _ ?_
      refine foldl_preserve _ (fun s : Run => GuardOk s.2) _
        (fun s x _ hp => invite_try_client_guard event dt now todayStart ok s x hp) _ ?_
      exact log_action_guard _ (by decide) _ _ _ guardOk_nil
    · exact log_action_guard _ (by decide) _ _ _ guardOk_nil

/-- One 24h-loop row extends the trace guard-correctly. -/
theorem tick24_guard (e : Event) (now : Int) (ok : Nat → Nat → Bool) (s : Run)
    (r : Rsvp) (h : GuardOk s.2) : GuardOk (tick_remind_24h_client e now ok s r).2 := by
  unfold tick_remind_24h_client
  dsimp only
  cases htg : try_get_tg_from_client_id s.1 r.clientId with
  | none => exact h
  | some tg =>
    dsimp only
    cases hcl : get_client_by_tg s.1 tg with
    | none => exact h
    | some client =>
      dsimp only
      split_ifs with h1 h2 h3 h4
      · exact h
      · exact h
      · simp only [log_action, emit, onSt, h4]
        rw [List.append_assoc]
        exact guardOk_append h (guardOk_pair _ _ _ _ (by decide))
      · simp only [emit]
        exact guardOk_append h (guardOk_single_att _ _ _ _)
      · exact h

/-- One 60m-loop row extends the trace guard-correctly. -/
theorem tick60_guard (e : Event) (now : Int) (ok : Nat → Nat → Bool) (s : Run)
    (r : Rsvp) (h : GuardOk s.2) : GuardOk (tick_remind_60m_client e now ok s r).2 := by
  unfold tick_remind_60m_client
  dsimp only
  cases htg : try_get_tg_from_client_id s.1 r.clientId with
  | none => exact h
  | some tg =>
    dsimp only
    cases hcl : get_client_by_tg s.1 tg with
    | none => exact h
    | some client =>
      dsimp only
      split_ifs with h1 h2 h3 h4
      · exact h
      · exact h
      · simp only [log_action, emit, onSt, h4]
        rw [List.append_assoc]
        exact guardOk_append h (guardOk_pair _ _ _ _ (by decide))
      · simp only [emit]
        exact guardOk_append h (guardOk_single_att _ _ _ _)
      · exact h

/-- One survey-loop row extends the trace guard-correctly. -/
theorem tickSurvey_guard (e : Event) (ok : Nat → Nat → Bool) (s : Run)
    (r : Rsvp) (h : GuardOk s.2) : GuardOk (tick_survey_client e ok s r).2 := by
  unfold tick_survey_client
  dsimp only
  cases htg : try_get_tg_from_client_id s.1 r.clientId with
  | none => exact h
  | some tg =>
    dsimp only
    cases hcl : get_client_by_tg s.1 tg with
    | none => exact h
    | some client =>
      dsimp only
      split_ifs with h1 h2
      · exact h
      · simp only [log_action, emit, onSt, h2]
        rw [List.append_assoc]
        exact guardOk_append h (guardOk_pair _ _ _ _ (by decide))
      · simp only [emit]
        exact guardOk_append h (guardOk_single_att _ _ _ _)

/-- The whole 24h loop keeps the trace guard-correct. -/
theorem branch24_guard (e : Event) (now : Int) (ok : Nat → Nat → Bool) (s : Run)
    (h : GuardOk s.2) :
    GuardOk ((rsvp_get_for_event s.1 e.eventId).foldl (tick_remind_24h_client e now ok) s).2 :=
  foldl_preserve _ (fun s : Run => GuardOk s.2) _
    (fun s' r _ hp => tick24_guard e now ok s' r hp) s h

/-- The whole 60m loop keeps the trace guard-correct. -/
theorem branch60_guard (e : Event) (now : Int) (ok : Nat → Nat → Bool) (s : Run)
    (h : GuardOk s.2) :
    GuardOk ((rsvp_get_for_event s.1 e.eventId).foldl (tick_remind_60m_client e now ok) s).2 :=
  foldl_preserve _ (fun s : Run => GuardOk s.2) _
    (fun s' r _ hp => tick60_guard e now ok s' r hp) s h

/-- Any post-event-survey loop keeps the trace guard-correct. -/
theorem branchSurv_guard (e : Event) (ok : Nat → Nat → Bool) (l : List Rsvp)
    (s : Run) (h : GuardOk s.2) :
    GuardOk ((l.foldl (tick_survey_client e ok) s)).2 :=
  foldl_preserve _ (fun s : Run => GuardOk s.2) _
    (fun s' r _ hp => tickSurvey_guard e ok s' r hp) s h

set_option maxHeartbeats 2000000 in
/-- The per-event tick body keeps the trace guard-correct. -/
theorem tick_event_guard (now : Int) (ok : Nat → Nat → Bool) (s : Run) (e : Event)
    (h : GuardOk s.2) : GuardOk (tick_event now ok s e).2 := by
  unfold tick_event
  cases hse : e.startAt with
  | none => exact h
  | some dt =>
    dsimp only
    have hs1 : ∀ s' : Run, GuardOk s'.2 → GuardOk (tick_branch_24h e now ok s').2 :=
      fun s' h' => branch24_guard e now ok s' h'
    have hs2 : ∀ s' : Run, GuardOk s'.2 → GuardOk (tick_branch_60m e now ok s').2 :=
      fun s' h' => branch60_guard e now ok s' h'
    have hs3 : ∀ s' : Run, GuardOk s'.2 → GuardOk (tick_branch_survey e ok s').2 := by
      intro s' h'
      unfold tick_branch_survey
      dsimp only
      split_ifs with g1 g2
      · exact h'
      · exact log_action_guard _ (by decide) _ _ _ h'
      · exact branchSurv_guard _ _ _ _ (log_action_guard _ (by decide) _ _ _ h')
    split_ifs <;>
      first
        | exact h
        | exact hs1 _ h
        | exact hs2 _ h
        | exact hs2 _ (hs1 _ h)
        | exact hs3 _ h
        | exact hs3 _ (hs1 _ h)
        | exact hs3 _ (hs2 _ h)
        | exact hs3 _ (hs2 _ (hs1 _ h))

/-- C7 (amended): per-attendee idempotency-guard ledger rows (`invite_sent`,
`remind_24h_sent`, `remind_60m_sent`, `post_event_survey_sent`) are written
only after a send attempt to that same pair judged successful, in both the
invite broadcast and the scheduler tick; the session-level
`post_event_survey_requested` guard row is the deliberate exception, written
before the per-attendee survey sends. -/
theorem ledger_written_after_send :
    (∀ st event now todayStart ok,
      GuardOk (send_initial_invites_for_event st event now todayStart ok).2) ∧
    ∀ st now ok, GuardOk (scheduler_tick st now ok).2 := by
  refine ⟨fun st event now todayStart ok =>
    invite_broadcast_guard st event now todayStart ok, fun st now ok => ?_⟩
  unfold scheduler_tick
  exact foldl_preserve _ (fun s : Run => GuardOk s.2) _
    (fun s e _ hp => tick_event_guard now ok s e hp) _ guardOk_nil

/-- The C7 counterexample store: one finished session (event 5) with an
attendee `'going'`, evaluated `FEEDBACK_DELAY` after its end. -/
def stC7 : St :=
  { clients := [{ clientId := 1, tgUserId := some 100, status := "active", documentsCollected := false }]
    events := [{ eventId := 5, type := 2, startAt := some 100000, durationMin := 60 }]
    rsvps := [Rsvp.mk 5 1 "going" false false false 0 false]
    attendance := [], feedback := [], ledger := [] }

/-- C7 counterexample: in the post-event-survey branch the session-level
guard row `post_event_survey_requested` is written FIRST, before any
per-attendee send is attempted - the tick's trace at `end + FEEDBACK_DELAY`
starts with the ledger write and the send attempt comes after it. -/
theorem ledger_before_send_counterexample :
    (scheduler_tick stC7 103900 (fun _ _ => true)).2 =
      [Ev.ledgerWrite "post_event_survey_requested" none (some 5),
       Ev.attempt 1 5 "post_event_survey" true,
       Ev.ledgerWrite "post_event_survey_sent" (some 1) (some 5)] := by
  decide

/-- Concrete instantiation of the amended C7 theorem on the `stC7` tick
trace: the `post_event_survey_sent` guard row is preceded by the successful
survey send attempt to the same pair. -/
theorem ledger_written_after_send_witness :
    Ev.attempt 1 5 "post_event_survey" true ∈
      [Ev.ledgerWrite "post_event_survey_requested" none (some 5),
       Ev.attempt 1 5 "post_event_survey" true] :=
  ledger_written_after_send.2 stC7 103900 (fun _ _ => true)
    [Ev.ledgerWrite "post_event_survey_requested" none (some 5),
     Ev.attempt 1 5 "post_event_survey" true]
    "post_event_survey_sent" 1 5 "post_event_survey" [] (by decide) (by decide)

/-! ## Claim C3: the 60-minute-reminder firing window -/

/-- Membership through the insertion step. -/
theorem mem_insertByStart {a e : Event} {l : List Event} :
    a ∈ insertByStart e l ↔ a = e ∨ a ∈ l := by
  induction l with
  | nil => simp [insertByStart]
  | cons x xs ih =>
    simp only [insertByStart]
    split_ifs with h
    · simp [List.mem_cons]
    · simp only [List.mem_cons, ih]
      tauto

/-- Sorting by start time does not change membership. -/
theorem mem_sortByStart {a : Event} {l : List Event} : a ∈ sortByStart l ↔ a ∈ l := by
  induction l with
  | nil => simp [sortByStart]
  | cons x xs ih =>
    show a ∈ insertByStart x (sortByStart xs) ↔ _
    rw [mem_insertByStart, ih, List.mem_cons]

/-- The 24h loop emits no `remind_60m` attempt. -/
theorem tick24_step_only60 (e : Event) (now : Int) (ok : Nat → Nat → Bool)
    (s : Run) (r : Rsvp) (cid eid : Nat) (b : Bool)
    (h : Ev.attempt cid eid "remind_60m" b ∈ (tick_remind_24h_client e now ok s r).2) :
    Ev.attempt cid eid "remind_60m" b ∈ s.2 := by
  unfold tick_remind_24h_client at h
  dsimp only at h
  cases htg : try_get_tg_from_client_id s.1 r.clientId with
  | none => rw [htg] at h; exact h
  | some tg =>
    rw [htg] at h
    dsimp only at h
    cases hcl : get_client_by_tg s.1 tg with
    | none => rw [hcl] at h; exact h
    | some client =>
      rw [hcl] at h
      dsimp only at h
      split_ifs at h
      · exact h
      · exact h
      · simp only [log_action, onSt, emit, List.mem_append, List.mem_singleton] at h
        rcases h with (h | h) | h
        · exact h
        · simp only [Ev.attempt.injEq] at h
          exact absurd h.2.2.1 (by decide)
        · cases h
      · simp only [emit, List.mem_append, List.mem_singleton] at h
        rcases h with h | h
        · exact h
        · simp only [Ev.attempt.injEq] at h
          exact absurd h.2.2.1 (by decide)
      · exact h

/-- The survey loop emits no `remind_60m` attempt. -/
theorem tickSurvey_step_only60 (e : Event) (ok : Nat → Nat → Bool)
    (s : Run) (r : Rsvp) (cid eid : Nat) (b : Bool)
    (h : Ev.attempt cid eid "remind_60m" b ∈ (tick_survey_client e ok s r).2) :
    Ev.attempt cid eid "remind_60m" b ∈ s.2 := by
  unfold tick_survey_client at h
  dsimp only at h
  cases htg : try_get_tg_from_client_id s.1 r.clientId with
  | none => rw [htg] at h; exact h
  | some tg =>
    rw [htg] at h
    dsimp only at h
    cases hcl : get_client_by_tg s.1 tg with
    | none => rw [hcl] at h; exact h
    | some client =>
      rw [hcl] at h
      dsimp only at h
      split_ifs at h
      · exact h
      · simp only [log_action, onSt, emit, List.mem_append, List.mem_singleton] at h
        rcases h with (h | h) | h
        · exact h
        · simp only [Ev.attempt.injEq] at h
          exact absurd h.2.2.1 (by decide)
        · cases h
      · simp only [emit, List.mem_append, List.mem_singleton] at h
        rcases h with h | h
        · exact h
        · simp only [Ev.attempt.injEq] at h
          exact absurd h.2.2.1 (by decide)

/-- A `remind_60m` attempt emitted by the 60m loop targets that loop's
event. -/
theorem tick60_step_only60 (e : Event) (now : Int) (ok : Nat → Nat → Bool)
    (s : Run) (r : Rsvp) (cid eid : Nat) (b : Bool)
    (h : Ev.attempt cid eid "remind_60m" b ∈ (tick_remind_60m_client e now ok s r).2) :
    Ev.attempt cid eid "remind_60m" b ∈ s.2 ∨ eid = e.eventId := by
  unfold tick_remind_60m_client at h
  dsimp only at h
  cases htg : try_get_tg_from_client_id s.1 r.clientId with
  | none => rw [htg] at h; exact Or.inl h
  | some tg =>
    rw [htg] at h
    dsimp only at h
    cases hcl : get_client_by_tg s.1 tg with
    | none => rw [hcl] at h; exact Or.inl h
    | some client =>
      rw [hcl] at h
      dsimp only at h
      split_ifs at h
      · exact Or.inl h
      · exact Or.inl h
      · simp only [log_action, onSt, emit, List.mem_append, List.mem_singleton] at h
        rcases h with (h | h) | h
        · exact Or.inl h
        · simp only [Ev.attempt.injEq] at h
          exact Or.inr h.2.1
        · cases h
      · simp only [emit, List.mem_append, List.mem_singleton] at h
        rcases h with h | h
        · exact Or.inl h
        · simp only [Ev.attempt.injEq] at h
          exact Or.inr h.2.1
      · exact Or.inl h

/-- Fold form of `tick24_step_only60`. -/
theorem fold24_only60 (e : Event) (now : Int) (ok : Nat → Nat → Bool)
    (l : List Rsvp) (s : Run) (cid eid : Nat) (b : Bool)
    (h : Ev.attempt cid eid "remind_60m" b ∈ (l.foldl (tick_remind_24h_client e now ok) s).2) :
    Ev.attempt cid eid "remind_60m" b ∈ s.2 := by
  refine foldl_preserve (tick_remind_24h_client e now ok)
    (fun s' : Run => Ev.attempt cid eid "remind_60m" b ∈ s'.2 →
      Ev.attempt cid eid "remind_60m" b ∈ s.2) l
    (fun s' r _ hp hm => hp (tick24_step_only60 e now ok s' r cid eid b hm)) s (fun hm => hm) h

/-- Fold form of `tickSurvey_step_only60`. -/
theorem foldSurv_only60 (e : Event) (ok : Nat → Nat → Bool)
    (l : List Rsvp) (s : Run) (cid eid : Nat) (b : Bool)
    (h : Ev.attempt cid eid "remind_60m" b ∈ (l.foldl (tick_survey_client e ok) s).2) :
    Ev.attempt cid eid "remind_60m" b ∈ s.2 := by
  refine foldl_preserve (tick_survey_client e ok)
    (fun s' : Run => Ev.attempt cid eid "remind_60m" b ∈ s'.2 →
      Ev.attempt cid eid "remind_60m" b ∈ s.2) l
    (fun s' r _ hp hm => hp (tickSurvey_step_only60 e ok s' r cid eid b hm)) s (fun hm => hm) h

/-- Fold form of `tick60_step_only60`. -/
theorem fold60_only60 (e : Event) (now : Int) (ok : Nat → Nat → Bool)
    (l : List Rsvp) (s : Run) (cid eid : Nat) (b : Bool)
    (h : Ev.attempt cid eid "remind_60m" b ∈ (l.foldl (tick_remind_60m_client e now ok) s).2) :
    Ev.attempt cid eid "remind_60m" b ∈ s.2 ∨ eid = e.eventId := by
  refine foldl_preserve (tick_remind_60m_client e now ok)
    (fun s' : Run => Ev.attempt cid eid "remind_60m" b ∈ s'.2 →
      Ev.attempt cid eid "remind_60m" b ∈ s.2 ∨ eid = e.eventId) l
    (fun s' r _ hp hm => ?_) s (fun hm => Or.inl hm) h
  rcases tick60_step_only60 e now ok s' r cid eid b hm with hm' | he
  · exact hp hm'
  · exact Or.inr he

/-- A `remind_60m` attempt traced by the per-event tick body is either
pre-existing or targets this event, whose start then lies in the
`REM_60M +- JITTER` window around `now`. -/
theorem tick_event_only60 (now : Int) (ok : Nat → Nat → Bool) (s : Run) (e : Event)
    (cid eid : Nat) (b : Bool)
    (hmem : Ev.attempt cid eid "remind_60m" b ∈ (tick_event now ok s e).2) :
    Ev.attempt cid eid "remind_60m" b ∈ s.2 ∨
      (eid = e.eventId ∧ ∃ T, e.startAt = some T ∧ (T - now - REM_60M).natAbs ≤ JITTER) := by
  unfold tick_event at hmem
  cases hse : e.startAt with
  | none => rw [hse] at hmem; exact Or.inl hmem
  | some dt =>
    rw [hse] at hmem
    dsimp only at hmem
    have hsurv : ∀ s' : Run,
        Ev.attempt cid eid "remind_60m" b ∈ (tick_branch_survey e ok s').2 →
        Ev.attempt cid eid "remind_60m" b ∈ s'.2 := by
      intro s' hm
      unfold tick_branch_survey at hm
      dsimp only at hm
      split_ifs at hm with g1 g2
      · exact hm
      · simp only [log_action, List.mem_append, List.mem_singleton] at hm
        rcases hm with hm | hm
        · exact hm
        · cases hm
      · replace hm := foldSurv_only60 _ _ _ _ _ _ _ hm
        simp only [log_action, List.mem_append, List.mem_singleton] at hm
        rcases hm with hm | hm
        · exact hm
        · cases hm
    have h60 : ∀ s' : Run,
        Ev.attempt cid eid "remind_60m" b ∈ (tick_branch_60m e now ok s').2 →
        Ev.attempt cid eid "remind_60m" b ∈ s'.2 ∨ eid = e.eventId :=
      fun s' hm => fold60_only60 _ _ _ _ _ _ _ _ hm
    have h24 : ∀ s' : Run,
        Ev.attempt cid eid "remind_60m" b ∈ (tick_branch_24h e now ok s').2 →
        Ev.attempt cid eid "remind_60m" b ∈ s'.2 :=
      fun s' hm => fold24_only60 _ _ _ _ _ _ _ _ hm
    split_ifs at hmem with c1 c2 c3
    all_goals first
      | exact Or.inl hmem
      | exact Or.inl (hsurv _ hmem)
      | exact Or.inl (h24 _ hmem)
      | exact Or.inl (h24 _ (hsurv _ hmem))
      | exact (h60 _ hmem).elim (fun hm => Or.inl (h24 _ hm))
          (fun he => Or.inr ⟨he, dt, rfl, by assumption⟩)
      | exact (h60 _ hmem).elim (fun hm => Or.inl hm)
          (fun he => Or.inr ⟨he, dt, rfl, by assumption⟩)
      | exact (h60 _ (hsurv _ hmem)).elim (fun hm => Or.inl (h24 _ hm))
          (fun he => Or.inr ⟨he, dt, rfl, by assumption⟩)
      | exact (h60 _ (hsurv _ hmem)).elim (fun hm => Or.inl hm)
          (fun he => Or.inr ⟨he, dt, rfl, by assumption⟩)

/-- Band necessity: any `remind_60m` attempt traced by a tick targets a
stored event whose start lies within `REM_60M +- JITTER` of `now`. -/
theorem scheduler_tick_only60 (st : St) (now : Int) (ok : Nat → Nat → Bool)
    (cid eid : Nat) (b : Bool)
    (hmem : Ev.attempt cid eid "remind_60m" b ∈ (scheduler_tick st now ok).2) :
    ∃ e ∈ st.events, e.eventId = eid ∧ ∃ T, e.startAt = some T ∧
      (T - now - REM_60M).natAbs ≤ JITTER := by
  unfold scheduler_tick at hmem
  refine foldl_preserve (tick_event now ok)
    (fun s : Run => Ev.attempt cid eid "remind_60m" b ∈ s.2 →
      ∃ e ∈ st.events, e.eventId = eid ∧ ∃ T, e.startAt = some T ∧
        (T - now - REM_60M).natAbs ≤ JITTER)
    (list_future_events_sorted st now)
    (fun s e hel hp hm => ?_) (st, []) (fun hm => by cases hm) hmem
  rcases tick_event_only60 now ok s e cid eid b hm with hm' | ⟨heid, T, hT, hband⟩
  · exact hp hm'
  · have h1 : e ∈ sortByStart (st.events.filter fun e =>
        match e.startAt with | some t => decide (now - 86400 ≤ t) | none => false) := hel
    have h2 := mem_sortByStart.1 h1
    exact ⟨e, (List.mem_filter.1 h2).1, heid.symm, T, hT, hband⟩

/-- One-event, one-eligible-attendee store family (start time `T`) for the
60m-window characterization. -/
def st60 (T : Int) : St :=
  { clients := [{ clientId := 1, tgUserId := some 100, status := "active", documentsCollected := false }]
    events := [{ eventId := 3, type := 2, startAt := some T, durationMin := 60 }]
    rsvps := [Rsvp.mk 3 1 "going" false false false 0 false]
    attendance := [], feedback := [], ledger := [] }

/-- Band sufficiency: for every start time `T` and tick time `now` inside
`T - REM_60M +- JITTER`, the eligible attendee of `st60 T` receives the
60m reminder. -/
theorem remind60_fires_in_band (T now : Int)
    (hband : (T - now - REM_60M).natAbs ≤ JITTER) :
    Ev.attempt 1 3 "remind_60m" true ∈ (scheduler_tick (st60 T) now (fun _ _ => true)).2 := by
  have h1 : now - 86400 ≤ T := by
    simp only [REM_60M, JITTER] at hband
    omega
  have hc24 : ¬((T - now - REM_24H).natAbs ≤ JITTER) := by
    simp only [REM_60M, JITTER] at hband
    simp only [REM_24H, JITTER]
    omega
  have hcs : ¬((now - (T + 60 * 60) - FEEDBACK_DELAY).natAbs ≤ JITTER) := by
    simp only [REM_60M, JITTER] at hband
    simp only [FEEDBACK_DELAY, JITTER]
    omega
  have hlist : list_future_events_sorted (st60 T) now = [Event.mk 3 2 (some T) 60] := by
    unfold list_future_events_sorted st60 sortByStart
    dsimp only
    rw [List.filter_cons, List.filter_nil]
    dsimp only
    rw [if_pos (decide_eq_true h1)]
    rfl
  unfold scheduler_tick
  rw [hlist]
  simp only [List.foldl_cons, List.foldl_nil]
  unfold tick_event
  dsimp only
  rw [if_neg hc24, if_pos hband, if_neg hcs]
  simp [tick_branch_60m, rsvp_get_for_event, st60, tick_remind_60m_client,
    try_get_tg_from_client_id, get_client_by_tg, log_action, onSt, emit]

/-- C3 counterexample: for a fully eligible attendee (`rsvp='going'`,
`reminded_60m=false`, active, reachable), a tick at `now = T - 3600` - the
centre of the claimed `T - 60min +- 60s` band - sends no 60-minute
reminder, while a tick at `now = T - 600` - outside that claimed band -
does send it. -/
theorem remind60_band_counterexample :
    (∀ b, Ev.attempt 1 3 "remind_60m" b ∉
      (scheduler_tick (st60 100000) (100000 - 3600) (fun _ _ => true)).2) ∧
    Ev.attempt 1 3 "remind_60m" true ∈
      (scheduler_tick (st60 100000) (100000 - 600) (fun _ _ => true)).2 := by
  decide

/-- C3 (amended): with the production constants (`REM_60M = 10*60`,
`JITTER = 60`) the 60-minute reminder fires in the band `T - 10min +- 60s`,
not `T - 60min +- 60s`: a scheduler tick traces a `remind_60m` attempt only
when the targeted session's start `T` satisfies `|T - now - 600| <= 60`,
and for an eligible `'going'` attendee every tick inside that band does
send the reminder (after which `reminded_60m` blocks repeats). -/
theorem remind60_band_characterization :
    (∀ st now ok cid eid b,
      Ev.attempt cid eid "remind_60m" b ∈ (scheduler_tick st now ok).2 →
      ∃ e ∈ st.events, e.eventId = eid ∧ ∃ T, e.startAt = some T ∧
        (T - now - REM_60M).natAbs ≤ JITTER) ∧
    ∀ T now, (T - now - REM_60M).natAbs ≤ JITTER →
      Ev.attempt 1 3 "remind_60m" true ∈
        (scheduler_tick (st60 T) now (fun _ _ => true)).2 :=
  ⟨fun st now ok cid eid b h => scheduler_tick_only60 st now ok cid eid b h,
   fun T now h => remind60_fires_in_band T now h⟩

/-- Concrete instantiation of the amended C3 theorem at the lower band
edge. -/
theorem remind60_band_characterization_witness :
    Ev.attempt 1 3 "remind_60m" true ∈
      (scheduler_tick (st60 100000) 99400 (fun _ _ => true)).2 :=
  remind60_band_characterization.2 100000 99400 (by decide)
